import Mathlib

/-!
# Print-to-file parallel-port printer (`src/printer/prt_tofile.c`)

A shallow embedding of the device: the C struct `printer_t` becomes a Lean
structure, every C function becomes a Lean function of the same name that
passes the device explicitly, and the calls the device makes to the outside
(`fopen`, `fwrite`, `fclose`, `lpt_irq`, `free`) are appended, in call order,
to the `events` log carried next to the C fields.

Conventions
* `uint8_t` values are naturals reduced `% 256`, `uint32_t` values `% 2^32`,
  `uint64_t` values `% 2^64`; `int8_t` flags are integers.
* Each function is embedded for a device pointer that is not `NULL`; the
  functions named `_priv` take the pointer itself, `none` being `NULL`.
* `FILE *` is `Option Nat`: `none` is `NULL`, `some h` is the stream `h`.
* The result of `fopen` is not decided by the device; each function that can
  reach the `fopen` call takes that result as the argument `fopen_result`.
  The file name built from the wall clock and the creation of the output
  directory are not modelled.
* `pc_timer_t` is `Option Nat`: `none` is a disabled timer, `some d` a timer
  enabled by `timer_set_delay_u64` with delay `d`.
* `ISACONST` and `TIMER_USEC` come from headers outside this unit and are
  parameters.
* The buffer is a list of `BUFFER_LEN` bytes.  A store at an index outside the
  list leaves the list as it is and `fwrite` of more than `BUFFER_LEN` bytes
  logs only the bytes of the list: the C behaviour is undefined there, and the
  statements that depend on buffer contents assume the cursor is in range.
-/

namespace PrtToFile

/-- `#define BUFFER_LEN 4096`. -/
def BUFFER_LEN : Nat := 4096

/-- Modulus of `uint8_t`. -/
def U8 : Nat := 256

/-- Modulus of `uint32_t`. -/
def U32 : Nat := 4294967296

/-- Modulus of `uint64_t`. -/
def U64 : Nat := 18446744073709551616

/-- Calls made by the device to its environment. -/
inductive Event where
  /-- `fopen(fullname, "ab")` returned the stream `h`. -/
  | fopen_ok (h : Nat)
  /-- `fopen` returned `NULL`; the diagnostic was printed to `stderr`. -/
  | fopen_fail
  /-- `fwrite(buffer, 1, n, h)` with the `n` bytes written. -/
  | fwrite (h : Nat) (bytes : List Nat)
  /-- `fclose(h)` on an open stream. -/
  | fclose (h : Nat)
  /-- `fclose(NULL)`. -/
  | fclose_null
  /-- `lpt_irq(lpt, raise)`. -/
  | lpt_irq (lpt : Nat) (raise : Nat)
  /-- `free(dev)`. -/
  | free
  deriving DecidableEq, Repr

/-- A one-shot timer: `none` when disabled, `some d` when armed with delay `d`. -/
abbrev pc_timer_t := Option Nat

/-- The struct `printer_t`, with the log of external calls as last field. -/
structure printer_t where
  name : Nat
  lpt : Nat
  pulse_timer : pc_timer_t
  timeout_timer : pc_timer_t
  file : Option Nat
  buffer : List Nat
  bcursor : Nat
  data : Nat
  ack : Int
  select : Int
  busy : Int
  int_pending : Int
  error : Int
  autofeed : Int
  ctrl : Nat
  events : List Event
  deriving DecidableEq, Repr

/-- `flush_buffer`: when the buffer is not empty, open a file if none is open
(returning without writing when that fails), write `buffer[0..bcursor)` and
reset the cursor. -/
def flush_buffer (fopen_result : Option Nat) (printer : printer_t) : printer_t :=
  if printer.bcursor ≠ 0 then
    match printer.file with
    | none =>
      match fopen_result with
      | none => { printer with file := none, events := printer.events ++ [Event.fopen_fail] }
      | some h =>
        { printer with
          file := some h
          bcursor := 0
          events := printer.events ++
            [Event.fopen_ok h, Event.fwrite h (printer.buffer.take printer.bcursor)] }
    | some f =>
      { printer with
        bcursor := 0
        events := printer.events ++ [Event.fwrite f (printer.buffer.take printer.bcursor)] }
  else printer

/-- `push_byte`: `buffer[bcursor++] = data`, then flush when the cursor has
reached `BUFFER_LEN`. -/
def push_byte (fopen_result : Option Nat) (printer : printer_t) : printer_t :=
  let stored : printer_t :=
    { printer with
      buffer := printer.buffer.set printer.bcursor printer.data
      bcursor := (printer.bcursor + 1) % U32 }
  if stored.bcursor ≥ BUFFER_LEN then flush_buffer fopen_result stored else stored

/-- `reset_printer`: clear the acknowledge and disable both timers. -/
def reset_printer (printer : printer_t) : printer_t :=
  { printer with ack := 0, pulse_timer := none, timeout_timer := none }

/-- `pulse_timer` callback: end the acknowledge pulse, raising the interrupt
when an acknowledge was pending, and disable the timer. -/
def pulse_timer (dev : printer_t) : printer_t :=
  let dev1 : printer_t :=
    if dev.ack ≠ 0 then
      { dev with ack := 0, events := dev.events ++ [Event.lpt_irq dev.lpt 1] }
    else dev
  { dev1 with pulse_timer := none }

/-- `timeout_timer` callback: flush, `fclose(dev->file)`, forget the file and
disable the timer. -/
def timeout_timer (fopen_result : Option Nat) (dev : printer_t) : printer_t :=
  let dev1 := flush_buffer fopen_result dev
  let closed : Event :=
    match dev1.file with
    | some h => Event.fclose h
    | none => Event.fclose_null
  { dev1 with file := none, timeout_timer := none, events := dev1.events ++ [closed] }

/-- `write_data`: latch the byte. -/
def write_data (val : Nat) (dev : printer_t) : printer_t :=
  { dev with data := val % U8 }

/-- `write_ctrl`: decode autofeed and select, reset on a rising edge of bit 2,
accept the latched byte on a falling edge of bit 0, store the new control. -/
def write_ctrl (ISACONST TIMER_USEC : Nat) (val : Nat) (fopen_result : Option Nat)
    (dev : printer_t) : printer_t :=
  let val := val % U8
  let dev1 : printer_t := { dev with autofeed := if val &&& 0x02 ≠ 0 then 1 else 0 }
  let dev2 : printer_t := if val &&& 0x08 ≠ 0 then { dev1 with select := 1 } else dev1
  let dev3 : printer_t :=
    if val &&& 0x04 ≠ 0 ∧ ¬ (dev2.ctrl &&& 0x04 ≠ 0) then
      reset_printer { dev2 with select := 0 }
    else dev2
  let dev4 : printer_t :=
    if ¬ (val &&& 0x01 ≠ 0) ∧ dev3.ctrl &&& 0x01 ≠ 0 then
      let pushed := push_byte fopen_result dev3
      { pushed with
        ack := 1
        pulse_timer := some (ISACONST % U64)
        timeout_timer := some (5000000 * TIMER_USEC % U64) }
    else dev3
  { dev4 with ctrl := val }

/-- `read_status`: `0x9f`, with bit 6 set when no acknowledge is pending.  The
device is read through a `const` pointer; it is returned as it was. -/
def read_status (dev : printer_t) : Nat × printer_t :=
  let ret := 0x9f
  (if dev.ack = 0 then ret ||| 0x40 else ret, dev)

/-- The device `printer_init` returns when `malloc` succeeds: the struct zeroed
by `memset`, then `ctrl = 0x04`, the owner `lpt`, no acknowledge, both timers
disabled, the cursor at `0` and no file. -/
def init (lpt : Nat) : printer_t :=
  { name := 0
    lpt := lpt
    pulse_timer := none
    timeout_timer := none
    file := none
    buffer := List.replicate BUFFER_LEN 0
    bcursor := 0
    data := 0
    ack := 0
    select := 0
    busy := 0
    int_pending := 0
    error := 0
    autofeed := 0
    ctrl := 0x04
    events := [] }

/-- `printer_init`: `NULL` when `malloc` fails, otherwise the initialised
device. -/
def printer_init (lpt : Nat) (malloc_ok : Bool) : Option printer_t :=
  if malloc_ok then some (init lpt) else none

/-- `printer_close`: flush, close the file when one is open, free the device.
The result is the device as it was when `free` was called. -/
def printer_close (fopen_result : Option Nat) (dev : printer_t) : printer_t :=
  let dev1 := flush_buffer fopen_result dev
  let dev2 : printer_t :=
    match dev1.file with
    | some h => { dev1 with events := dev1.events ++ [Event.fclose h] }
    | none => dev1
  { dev2 with events := dev2.events ++ [Event.free] }

/-! ## Operation sequences -/

/-- One invocation of the device by the host or by the timer subsystem. -/
inductive Op where
  | writeData (val : Nat)
  | writeControl (val : Nat) (fopen_result : Option Nat)
  | readStatus
  | pulseFire
  | timeoutFire (fopen_result : Option Nat)
  deriving DecidableEq, Repr

/-- Apply one operation. -/
def step (ISACONST TIMER_USEC : Nat) (dev : printer_t) : Op → printer_t
  | Op.writeData val => write_data val dev
  | Op.writeControl val r => write_ctrl ISACONST TIMER_USEC val r dev
  | Op.readStatus => (read_status dev).2
  | Op.pulseFire => pulse_timer dev
  | Op.timeoutFire r => timeout_timer r dev

/-- Apply a sequence of operations, first to last. -/
def run (ISACONST TIMER_USEC : Nat) (dev : printer_t) (ops : List Op) : printer_t :=
  ops.foldl (step ISACONST TIMER_USEC) dev

/-- Whether the operation can occur in the device state: a timer callback is
only invoked while its timer is armed. -/
def enabled (dev : printer_t) : Op → Bool
  | Op.pulseFire => dev.pulse_timer.isSome
  | Op.timeoutFire _ => dev.timeout_timer.isSome
  | _ => true

/-- Whether every operation of the sequence can occur when its turn comes. -/
def schedulable (ISACONST TIMER_USEC : Nat) : printer_t → List Op → Bool
  | _, [] => true
  | dev, op :: ops =>
    enabled dev op && schedulable ISACONST TIMER_USEC (step ISACONST TIMER_USEC dev op) ops

/-- Whether the `fopen` the operation may reach succeeds. -/
def Op.opens : Op → Bool
  | Op.writeControl _ r => r.isSome
  | Op.timeoutFire r => r.isSome
  | _ => true

/-- Whether the operation is a firing of the job timeout. -/
def Op.isTimeout : Op → Bool
  | Op.timeoutFire _ => true
  | _ => false

/-! ## Observations on the event log -/

/-- The bytes handed to `fwrite`, concatenated in call order. -/
def written : List Event → List Nat
  | [] => []
  | Event.fwrite _ bytes :: es => bytes ++ written es
  | _ :: es => written es

/-- The `fwrite` calls of the log, in call order. -/
def flushes : List Event → List (Nat × List Nat)
  | [] => []
  | Event.fwrite h bytes :: es => (h, bytes) :: flushes es
  | _ :: es => flushes es

/-- The bytes currently held in the buffer, `buffer[0..bcursor)`. -/
def buffered (dev : printer_t) : List Nat :=
  dev.buffer.take dev.bcursor

/-- The byte stream of the device: what was written followed by what is
buffered. -/
def byte_stream (dev : printer_t) : List Nat :=
  written dev.events ++ buffered dev

/-! ## Control-line edges, in the words of the register description -/

/-- Falling edge of the strobe line: bit 0 set in the stored control, clear in
the value written. -/
def strobe_edge (ctrl val : Nat) : Prop :=
  ctrl.testBit 0 = true ∧ val.testBit 0 = false

instance (ctrl val : Nat) : Decidable (strobe_edge ctrl val) := by
  unfold strobe_edge; infer_instance

/-- Rising edge of the reset line: bit 2 clear in the stored control, set in
the value written. -/
def reset_edge (ctrl val : Nat) : Prop :=
  ctrl.testBit 2 = false ∧ val.testBit 2 = true

instance (ctrl val : Nat) : Decidable (reset_edge ctrl val) := by
  unfold reset_edge; infer_instance

/-- The statements of `write_ctrl` that precede the strobe test: autofeed,
select and the reset edge. -/
def ctrl_lines (val : Nat) (dev : printer_t) : printer_t :=
  let val := val % U8
  let dev1 : printer_t := { dev with autofeed := if val &&& 0x02 ≠ 0 then 1 else 0 }
  let dev2 : printer_t := if val &&& 0x08 ≠ 0 then { dev1 with select := 1 } else dev1
  if val &&& 0x04 ≠ 0 ∧ ¬ (dev2.ctrl &&& 0x04 ≠ 0) then
    reset_printer { dev2 with select := 0 }
  else dev2

/-! ## The host's view of a run -/

/-- What the host has done with the registers, following the register
description: the data latch, the stored control, the bytes accepted at strobe
falling edges (oldest first), and how many of them were accepted since the job
timeout last fired. -/
structure Ledger where
  dataLatch : Nat
  control : Nat
  accepted : List Nat
  job : Nat
  deriving DecidableEq, Repr

/-- The ledger of a freshly initialised device: latch `0`, control `0x04`,
nothing accepted. -/
def Ledger.start : Ledger :=
  { dataLatch := 0, control := 0x04, accepted := [], job := 0 }

/-- Record one operation: a data write replaces the latch; a control write
accepts the latched byte when it is a strobe falling edge and replaces the
control; a firing of the job timeout ends the job. -/
def Ledger.observe (l : Ledger) : Op → Ledger
  | Op.writeData v => { l with dataLatch := v % 256 }
  | Op.writeControl v _ =>
    if strobe_edge l.control v then
      { l with control := v % 256, accepted := l.accepted ++ [l.dataLatch], job := l.job + 1 }
    else { l with control := v % 256 }
  | Op.timeoutFire _ => { l with job := 0 }
  | _ => l

/-- The ledger after a sequence of operations on a fresh device. -/
def ledger (ops : List Op) : Ledger :=
  ops.foldl Ledger.observe Ledger.start

/-- The host strobing `n` times: control `0x01`, then control `0x00`. -/
def strobes : Nat → Option Nat → List Op
  | 0, _ => []
  | n + 1, r => Op.writeControl 1 r :: Op.writeControl 0 r :: strobes n r

/-! ## Sample devices -/

/-- A fresh device after the host latched `0x41` and raised the strobe line. -/
def strobe_raised : printer_t :=
  run 1 1 (init 0) [Op.writeData 0x41, Op.writeControl 0x01 none]

/-- The same device after the strobe line was dropped again: `0x41` is
buffered and no file is open. -/
def one_buffered : printer_t :=
  write_ctrl 1 1 0x00 none strobe_raised

/-- A fresh device after `BUFFER_LEN` strobes during which `fopen` failed, with
the strobe line raised again. -/
def full_unflushed : printer_t :=
  run 1 1 (init 0) (strobes BUFFER_LEN none ++ [Op.writeControl 0x01 none])

/-! ## The acknowledge window -/

/-- The host's view of the acknowledge, following the register description:
the stored control, and whether an acknowledge is outstanding. -/
structure AckWindow where
  control : Nat
  pending : Bool
  deriving DecidableEq, Repr

/-- Record one operation: a control write that is a strobe falling edge opens
the window; one that is a reset rising edge and not a strobe falling edge
closes it; a firing of the pulse timer closes it; nothing else changes it. -/
def AckWindow.observe (w : AckWindow) : Op → AckWindow
  | Op.writeControl v _ =>
    { control := v % 256
      pending :=
        if strobe_edge w.control v then true
        else if reset_edge w.control v then false
        else w.pending }
  | Op.pulseFire => { w with pending := false }
  | _ => w

/-- The acknowledge window after a sequence of operations on a fresh device
(control `0x04`, no acknowledge outstanding). -/
def ack_window (ops : List Op) : AckWindow :=
  ops.foldl AckWindow.observe { control := 0x04, pending := false }

/-! ## Calls through the device pointer -/

/-- Result of a call made with the pointer `priv`: the call returned, or it
read a field through `NULL`. -/
inductive Call (α : Type) where
  | returned (a : α)
  | null_deref
  deriving DecidableEq, Repr

/-- `write_data(val, priv)`: returns at once when `priv` is `NULL`. -/
def write_data_priv (val : Nat) : Option printer_t → Call (Option printer_t)
  | none => Call.returned none
  | some dev => Call.returned (some (write_data val dev))

/-- `write_ctrl(val, priv)`: returns at once when `priv` is `NULL`. -/
def write_ctrl_priv (ISACONST TIMER_USEC : Nat) (val : Nat) (fopen_result : Option Nat) :
    Option printer_t → Call (Option printer_t)
  | none => Call.returned none
  | some dev => Call.returned (some (write_ctrl ISACONST TIMER_USEC val fopen_result dev))

/-- `read_status(priv)`: there is no `NULL` test; the first statement after the
declarations reads `dev->ack`. -/
def read_status_priv : Option printer_t → Call (Nat × Option printer_t)
  | none => Call.null_deref
  | some dev => Call.returned ((read_status dev).1, some (read_status dev).2)

/-- `pulse_timer(priv)`: there is no `NULL` test; the first statement reads
`dev->ack`. -/
def pulse_timer_priv : Option printer_t → Call (Option printer_t)
  | none => Call.null_deref
  | some dev => Call.returned (some (pulse_timer dev))

/-- `timeout_timer(priv)`: there is no `NULL` test; `flush_buffer(NULL)` returns
at its own test and the next statement reads `dev->file`. -/
def timeout_timer_priv (fopen_result : Option Nat) : Option printer_t → Call (Option printer_t)
  | none => Call.null_deref
  | some dev => Call.returned (some (timeout_timer fopen_result dev))

/-- `printer_close(priv)`: returns at once when `priv` is `NULL`. -/
def printer_close_priv (fopen_result : Option Nat) : Option printer_t → Call (Option printer_t)
  | none => Call.returned none
  | some dev => Call.returned (some (printer_close fopen_result dev))

/-! ## Bit tests -/

theorem and_two_pow_ne_zero (n i : Nat) : n &&& 2 ^ i ≠ 0 ↔ n.testBit i = true := by
  constructor
  · intro h
    by_contra hb
    apply h
    apply Nat.eq_of_testBit_eq
    intro j
    rw [Nat.testBit_and, Nat.testBit_two_pow, Nat.zero_testBit]
    by_cases hij : i = j
    · subst hij; simp [hb]
    · simp [hij]
  · intro hb h
    have := congrArg (fun m => Nat.testBit m i) h
    simp [Nat.testBit_and, Nat.testBit_two_pow, hb] at this

theorem testBit_mod_U8 (v i : Nat) (hi : i < 8) : (v % U8).testBit i = v.testBit i := by
  have : U8 = 2 ^ 8 := by norm_num [U8]
  rw [this, Nat.testBit_mod_two_pow]
  simp [hi]

theorem and_1_ne_zero (n : Nat) : n &&& 1 ≠ 0 ↔ n.testBit 0 = true :=
  and_two_pow_ne_zero n 0

theorem and_2_ne_zero (n : Nat) : n &&& 2 ≠ 0 ↔ n.testBit 1 = true :=
  and_two_pow_ne_zero n 1

theorem and_4_ne_zero (n : Nat) : n &&& 4 ≠ 0 ↔ n.testBit 2 = true :=
  and_two_pow_ne_zero n 2

theorem and_8_ne_zero (n : Nat) : n &&& 8 ≠ 0 ↔ n.testBit 3 = true :=
  and_two_pow_ne_zero n 3

/-- The strobe test of `write_ctrl` is the falling edge of bit 0. -/
theorem strobe_test_iff (ctrl val : Nat) :
    (¬ (val % U8 &&& 0x01 ≠ 0) ∧ ctrl &&& 0x01 ≠ 0) ↔ strobe_edge ctrl val := by
  rw [and_1_ne_zero, and_1_ne_zero, testBit_mod_U8 _ _ (by norm_num)]
  unfold strobe_edge
  constructor
  · rintro ⟨h1, h2⟩; exact ⟨h2, by simpa using h1⟩
  · rintro ⟨h1, h2⟩; exact ⟨by simp [h2], h1⟩

/-- The reset test of `write_ctrl` is the rising edge of bit 2. -/
theorem reset_test_iff (ctrl val : Nat) :
    (val % U8 &&& 0x04 ≠ 0 ∧ ¬ (ctrl &&& 0x04 ≠ 0)) ↔ reset_edge ctrl val := by
  rw [and_4_ne_zero, and_4_ne_zero, testBit_mod_U8 _ _ (by norm_num)]
  unfold reset_edge
  constructor
  · rintro ⟨h1, h2⟩; exact ⟨by simpa using h2, h1⟩
  · rintro ⟨h1, h2⟩; exact ⟨h2, by simp [h1]⟩

/-! ## The steps of `write_ctrl` -/

theorem write_ctrl_eq (I T val : Nat) (r : Option Nat) (dev : printer_t) :
    write_ctrl I T val r dev =
      { (if ¬ (val % U8 &&& 0x01 ≠ 0) ∧ (ctrl_lines val dev).ctrl &&& 0x01 ≠ 0 then
          { push_byte r (ctrl_lines val dev) with
            ack := 1
            pulse_timer := some (I % U64)
            timeout_timer := some (5000000 * T % U64) }
        else ctrl_lines val dev) with ctrl := val % U8 } := rfl

theorem ctrl_lines_frame (val : Nat) (dev : printer_t) :
    (ctrl_lines val dev).buffer = dev.buffer ∧
    (ctrl_lines val dev).bcursor = dev.bcursor ∧
    (ctrl_lines val dev).file = dev.file ∧
    (ctrl_lines val dev).events = dev.events ∧
    (ctrl_lines val dev).data = dev.data ∧
    (ctrl_lines val dev).ctrl = dev.ctrl ∧
    (ctrl_lines val dev).lpt = dev.lpt := by
  simp only [ctrl_lines, reset_printer]
  split_ifs <;> simp

theorem flush_buffer_congr (r : Option Nat) (a b : printer_t)
    (h1 : a.buffer = b.buffer) (h2 : a.bcursor = b.bcursor) (h3 : a.file = b.file)
    (h4 : a.events = b.events) :
    (flush_buffer r a).buffer = (flush_buffer r b).buffer ∧
    (flush_buffer r a).bcursor = (flush_buffer r b).bcursor ∧
    (flush_buffer r a).file = (flush_buffer r b).file ∧
    (flush_buffer r a).events = (flush_buffer r b).events := by
  obtain ⟨_, _, _, _, af, ab, ac, _, _, _, _, _, _, _, _, ae⟩ := a
  obtain ⟨_, _, _, _, bf, bb, bc, _, _, _, _, _, _, _, _, be⟩ := b
  simp only at h1 h2 h3 h4
  subst h1 h2 h3 h4
  simp only [flush_buffer]
  by_cases hc : ac = 0
  · simp [hc]
  · rcases af with _ | f <;> rcases r with _ | h <;> simp [hc]

theorem push_byte_congr (r : Option Nat) (a b : printer_t)
    (h1 : a.buffer = b.buffer) (h2 : a.bcursor = b.bcursor) (h3 : a.file = b.file)
    (h4 : a.events = b.events) (h5 : a.data = b.data) :
    (push_byte r a).buffer = (push_byte r b).buffer ∧
    (push_byte r a).bcursor = (push_byte r b).bcursor ∧
    (push_byte r a).file = (push_byte r b).file ∧
    (push_byte r a).events = (push_byte r b).events := by
  simp only [push_byte, h1, h2, h5]
  split_ifs
  · exact flush_buffer_congr r _ _ (by simp [h1, h2, h5]) (by simp [h2]) (by simp [h3])
      (by simp [h4])
  · simp [h3, h4]

theorem written_append (es fs : List Event) : written (es ++ fs) = written es ++ written fs := by
  induction es with
  | nil => simp [written]
  | cons e es ih => cases e <;> simp [written, ih]

theorem flushes_append (es fs : List Event) : flushes (es ++ fs) = flushes es ++ flushes fs := by
  induction es with
  | nil => simp [flushes]
  | cons e es ih => cases e <;> simp [flushes, ih]

theorem take_set_succ (l : List Nat) (c d : Nat) (h : c < l.length) :
    (l.set c d).take (c + 1) = l.take c ++ [d] := by
  induction l generalizing c with
  | nil => simp at h
  | cons x xs ih =>
    cases c with
    | zero => simp
    | succ c => simpa using ih c (by simpa using h)

/-- Accepting a byte below the flush threshold only stores it. -/
theorem push_byte_below (r : Option Nat) (dev : printer_t) (h : dev.bcursor + 1 < BUFFER_LEN) :
    push_byte r dev =
      { dev with buffer := dev.buffer.set dev.bcursor dev.data, bcursor := dev.bcursor + 1 } := by
  have h1 : (dev.bcursor + 1) % U32 = dev.bcursor + 1 := by
    unfold BUFFER_LEN at h; unfold U32; omega
  simp only [push_byte, h1]
  rw [if_neg (by simpa using h)]

/-- Accepting the byte that fills the buffer flushes it. -/
theorem push_byte_full (r : Option Nat) (dev : printer_t) (h : dev.bcursor + 1 = BUFFER_LEN) :
    push_byte r dev =
      flush_buffer r
        { dev with buffer := dev.buffer.set dev.bcursor dev.data, bcursor := BUFFER_LEN } := by
  have h1 : (dev.bcursor + 1) % U32 = BUFFER_LEN := by
    unfold BUFFER_LEN at h ⊢; unfold U32; omega
  simp only [push_byte, h1]
  rw [if_pos (by simp)]

/-- An accepted byte joins the byte stream at its end, whatever `fopen` does. -/
theorem push_byte_stream (r : Option Nat) (dev : printer_t)
    (hc : dev.bcursor < BUFFER_LEN) (hl : dev.buffer.length = BUFFER_LEN) :
    byte_stream (push_byte r dev) = byte_stream dev ++ [dev.data] ∧
    (push_byte r dev).buffer.length = BUFFER_LEN := by
  have hlt : dev.bcursor < dev.buffer.length := by rw [hl]; exact hc
  by_cases h : dev.bcursor + 1 < BUFFER_LEN
  · rw [push_byte_below r dev h]
    simp [byte_stream, buffered, take_set_succ _ _ _ hlt, hl]
  · have h' : dev.bcursor + 1 = BUFFER_LEN := by omega
    rw [push_byte_full r dev h']
    have hne : BUFFER_LEN ≠ 0 := by decide
    have htk : (dev.buffer.set dev.bcursor dev.data).take BUFFER_LEN
        = dev.buffer.take dev.bcursor ++ [dev.data] := by
      rw [← h']; exact take_set_succ _ _ _ hlt
    rcases hf : dev.file with _ | f <;> rcases r with _ | h0 <;>
      simp [flush_buffer, byte_stream, buffered, hf, hne, htk, written_append, written, hl]

/-- The strobe test of `write_ctrl`, read on the device it is evaluated on. -/
theorem strobe_test_lines (val : Nat) (dev : printer_t) :
    (¬ (val % U8 &&& 0x01 ≠ 0) ∧ (ctrl_lines val dev).ctrl &&& 0x01 ≠ 0) ↔
      strobe_edge dev.ctrl val := by
  rw [(ctrl_lines_frame val dev).2.2.2.2.2.1]
  exact strobe_test_iff dev.ctrl val

/-- A control write that is not a strobe falling edge touches neither the
buffer, the cursor, the file, the event log nor the data latch. -/
theorem write_ctrl_no_edge (I T val : Nat) (r : Option Nat) (dev : printer_t)
    (h : ¬ strobe_edge dev.ctrl val) :
    (write_ctrl I T val r dev).buffer = dev.buffer ∧
    (write_ctrl I T val r dev).bcursor = dev.bcursor ∧
    (write_ctrl I T val r dev).file = dev.file ∧
    (write_ctrl I T val r dev).events = dev.events ∧
    (write_ctrl I T val r dev).data = dev.data ∧
    (write_ctrl I T val r dev).ctrl = val % U8 := by
  rw [write_ctrl_eq, if_neg (by rw [strobe_test_lines]; exact h)]
  obtain ⟨h1, h2, h3, h4, h5, -, -⟩ := ctrl_lines_frame val dev
  exact ⟨h1, h2, h3, h4, h5, rfl⟩

/-- A control write that is a strobe falling edge leaves the buffer, cursor,
file and event log as `push_byte` does on the device before the write. -/
theorem write_ctrl_edge (I T val : Nat) (r : Option Nat) (dev : printer_t)
    (h : strobe_edge dev.ctrl val) :
    (write_ctrl I T val r dev).buffer = (push_byte r dev).buffer ∧
    (write_ctrl I T val r dev).bcursor = (push_byte r dev).bcursor ∧
    (write_ctrl I T val r dev).file = (push_byte r dev).file ∧
    (write_ctrl I T val r dev).events = (push_byte r dev).events ∧
    (write_ctrl I T val r dev).ctrl = val % U8 ∧
    (write_ctrl I T val r dev).ack = 1 ∧
    (write_ctrl I T val r dev).pulse_timer = some (I % U64) ∧
    (write_ctrl I T val r dev).timeout_timer = some (5000000 * T % U64) := by
  rw [write_ctrl_eq, if_pos (by rw [strobe_test_lines]; exact h)]
  obtain ⟨h1, h2, h3, h4, h5, -, -⟩ := ctrl_lines_frame val dev
  obtain ⟨p1, p2, p3, p4⟩ := push_byte_congr r (ctrl_lines val dev) dev h1 h2 h3 h4 h5
  exact ⟨p1, p2, p3, p4, rfl, rfl, rfl, rfl⟩

/-- The data latch is not touched by `flush_buffer`. -/
theorem flush_buffer_frame (r : Option Nat) (dev : printer_t) :
    (flush_buffer r dev).buffer = dev.buffer ∧
    (flush_buffer r dev).data = dev.data ∧
    (flush_buffer r dev).ctrl = dev.ctrl ∧
    (flush_buffer r dev).ack = dev.ack ∧
    (flush_buffer r dev).select = dev.select ∧
    (flush_buffer r dev).autofeed = dev.autofeed ∧
    (flush_buffer r dev).pulse_timer = dev.pulse_timer ∧
    (flush_buffer r dev).timeout_timer = dev.timeout_timer ∧
    (flush_buffer r dev).lpt = dev.lpt := by
  unfold flush_buffer
  by_cases hc : dev.bcursor = 0
  · simp [hc]
  · rcases hf : dev.file with _ | f <;> rcases r with _ | h <;> simp [hc]

/-- The data latch and the control are not touched by `push_byte`. -/
theorem push_byte_frame (r : Option Nat) (dev : printer_t) :
    (push_byte r dev).data = dev.data ∧
    (push_byte r dev).ctrl = dev.ctrl ∧
    (push_byte r dev).buffer.length = dev.buffer.length := by
  simp only [push_byte]
  split_ifs
  · obtain ⟨h1, h2, h3, -⟩ := flush_buffer_frame r
      { dev with buffer := dev.buffer.set dev.bcursor dev.data
                 bcursor := (dev.bcursor + 1) % U32 }
    rw [h1, h2, h3]; simp
  · simp

theorem write_ctrl_data (I T val : Nat) (r : Option Nat) (dev : printer_t) :
    (write_ctrl I T val r dev).data = dev.data ∧
    (write_ctrl I T val r dev).ctrl = val % U8 ∧
    (write_ctrl I T val r dev).buffer.length = dev.buffer.length := by
  by_cases h : strobe_edge dev.ctrl val
  · rw [write_ctrl_eq, if_pos (by rw [strobe_test_lines]; exact h)]
    obtain ⟨h1, -, -, -, h5, -, -⟩ := ctrl_lines_frame val dev
    obtain ⟨q1, -, q3⟩ := push_byte_frame r (ctrl_lines val dev)
    exact ⟨by simpa [h5] using q1, rfl, by simpa [h1] using q3⟩
  · obtain ⟨h1, -, -, -, h5, h6⟩ := write_ctrl_no_edge I T val r dev h
    exact ⟨h5, h6, by rw [h1]⟩

/-- The pulse callback touches only the acknowledge, its own timer and, by the
interrupt it raises, the event log. -/
theorem pulse_timer_frame (dev : printer_t) :
    (pulse_timer dev).buffer = dev.buffer ∧
    (pulse_timer dev).bcursor = dev.bcursor ∧
    (pulse_timer dev).file = dev.file ∧
    (pulse_timer dev).data = dev.data ∧
    (pulse_timer dev).ctrl = dev.ctrl ∧
    written (pulse_timer dev).events = written dev.events ∧
    flushes (pulse_timer dev).events = flushes dev.events := by
  simp only [pulse_timer]
  split_ifs <;> simp [written_append, flushes_append, written, flushes]

/-! ## Runs from the initial state -/

theorem run_snoc (I T : Nat) (dev : printer_t) (ops : List Op) (op : Op) :
    run I T dev (ops ++ [op]) = step I T (run I T dev ops) op := by
  simp [run, List.foldl_append]

theorem ledger_snoc (ops : List Op) (op : Op) :
    ledger (ops ++ [op]) = (ledger ops).observe op := by
  simp [ledger, List.foldl_append]

/-- The job timeout moves the buffered bytes to the file when a needed `fopen`
succeeds: the byte stream is kept and the cursor returns to `0`. -/
theorem timeout_timer_stream (h : Nat) (dev : printer_t) :
    byte_stream (timeout_timer (some h) dev) = byte_stream dev ∧
    (timeout_timer (some h) dev).bcursor = 0 ∧
    (timeout_timer (some h) dev).file = none ∧
    (timeout_timer (some h) dev).buffer = dev.buffer ∧
    (timeout_timer (some h) dev).data = dev.data ∧
    (timeout_timer (some h) dev).ctrl = dev.ctrl := by
  unfold timeout_timer flush_buffer byte_stream buffered
  by_cases hc : dev.bcursor = 0
  · rcases hf : dev.file with _ | f <;> simp [hc, hf, written_append, written]
  · rcases hf : dev.file with _ | f <;> simp [hc, written_append, written]

/-- With every `fopen` succeeding, the device started by `printer_init` keeps
`written ++ buffered` equal to the bytes the host had accepted, the cursor
below `BUFFER_LEN`, and its latch and control equal to the host's. -/
theorem run_stream_inv (I T lpt : Nat) (ops : List Op)
    (hopen : ∀ op ∈ ops, op.opens = true) :
    byte_stream (run I T (init lpt) ops) = (ledger ops).accepted ∧
    (run I T (init lpt) ops).bcursor < BUFFER_LEN ∧
    (run I T (init lpt) ops).buffer.length = BUFFER_LEN ∧
    (run I T (init lpt) ops).data = (ledger ops).dataLatch ∧
    (run I T (init lpt) ops).ctrl = (ledger ops).control := by
  induction ops using List.reverseRecOn with
  | nil =>
    refine ⟨?_, ?_, ?_, ?_, ?_⟩
    · simp [run, ledger, init, byte_stream, buffered, written, Ledger.start]
    · show 0 < BUFFER_LEN
      decide
    · simp [run, init]
    · rfl
    · rfl
  | append_singleton ops op ih =>
    have hprev : ∀ o ∈ ops, o.opens = true := fun o ho => hopen o (by simp [ho])
    have hop : op.opens = true := hopen op (by simp)
    obtain ⟨i1, i2, i3, i4, i5⟩ := ih hprev
    rw [run_snoc, ledger_snoc]
    generalize run I T (init lpt) ops = s at i1 i2 i3 i4 i5 ⊢
    generalize ledger ops = l at i1 i4 i5 ⊢
    cases op with
    | writeData v =>
      simp only [step, write_data, Ledger.observe]
      exact ⟨i1, i2, i3, rfl, i5⟩
    | writeControl v r =>
      simp only [step, Ledger.observe]
      obtain ⟨d1, d2, d3⟩ := write_ctrl_data I T v r s
      by_cases he : strobe_edge s.ctrl v
      · obtain ⟨e1, e2, e3, e4, -⟩ := write_ctrl_edge I T v r s he
        obtain ⟨q1, q2⟩ := push_byte_stream r s i2 i3
        rw [if_pos (by rw [← i5]; exact he)]
        refine ⟨?_, ?_, ?_, ?_, ?_⟩
        · simp only [byte_stream, buffered] at q1 i1 ⊢
          rw [e1, e2, e4, q1, i4, ← i1]
        · rw [e2]
          by_cases hb : s.bcursor + 1 < BUFFER_LEN
          · rw [push_byte_below r s hb]; exact hb
          · rw [push_byte_full r s (by omega)]
            obtain ⟨h0, rfl⟩ : ∃ h0, r = some h0 := by
              cases r with
              | none => simp [Op.opens] at hop
              | some h0 => exact ⟨h0, rfl⟩
            rcases hf : s.file with _ | f <;> simp [flush_buffer, hf, BUFFER_LEN]
        · rw [d3]; exact i3
        · rw [d1]; exact i4
        · rw [d2]; rfl
      · obtain ⟨n1, n2, n3, n4, n5, n6⟩ := write_ctrl_no_edge I T v r s he
        rw [if_neg (by rw [← i5]; exact he)]
        refine ⟨?_, ?_, ?_, ?_, ?_⟩
        · simp only [byte_stream, buffered] at i1 ⊢
          rw [n1, n2, n4]; exact i1
        · rw [n2]; exact i2
        · rw [n1]; exact i3
        · rw [n5]; exact i4
        · rw [n6]; rfl
    | readStatus =>
      simp only [step, read_status, Ledger.observe]
      exact ⟨i1, i2, i3, i4, i5⟩
    | pulseFire =>
      simp only [step, Ledger.observe]
      obtain ⟨p1, p2, p3, p4, p5, p6, -⟩ := pulse_timer_frame s
      refine ⟨?_, ?_, ?_, ?_, ?_⟩
      · simp only [byte_stream, buffered] at i1 ⊢
        rw [p1, p2, p6]; exact i1
      · rw [p2]; exact i2
      · rw [p1]; exact i3
      · rw [p4]; exact i4
      · rw [p5]; exact i5
    | timeoutFire r =>
      obtain ⟨h0, rfl⟩ : ∃ h0, r = some h0 := by
        cases r with
        | none => simp [Op.opens] at hop
        | some h0 => exact ⟨h0, rfl⟩
      simp only [step, Ledger.observe]
      obtain ⟨t1, t2, t3, t4, t5, t6⟩ := timeout_timer_stream h0 s
      refine ⟨?_, ?_, ?_, ?_, ?_⟩
      · rw [t1]; exact i1
      · rw [t2]; decide
      · rw [t4]; exact i3
      · rw [t5]; exact i4
      · rw [t6]; exact i5

theorem timeout_timer_buffer (r : Option Nat) (dev : printer_t) :
    (timeout_timer r dev).buffer = dev.buffer :=
  (flush_buffer_frame r dev).1

/-- No operation changes the size of the buffer. -/
theorem step_buffer_length (I T : Nat) (dev : printer_t) (op : Op) :
    (step I T dev op).buffer.length = dev.buffer.length := by
  cases op with
  | writeData v => rfl
  | writeControl v r => exact (write_ctrl_data I T v r dev).2.2
  | readStatus => rfl
  | pulseFire => simp only [step]; rw [(pulse_timer_frame dev).1]
  | timeoutFire r => simp only [step]; rw [timeout_timer_buffer]

theorem run_buffer_length (I T : Nat) (dev : printer_t) (ops : List Op) :
    (run I T dev ops).buffer.length = dev.buffer.length := by
  induction ops generalizing dev with
  | nil => rfl
  | cons op ops ih =>
    show (run I T (step I T dev op) ops).buffer.length = _
    rw [ih, step_buffer_length]

theorem init_buffer_length (lpt : Nat) : (init lpt).buffer.length = BUFFER_LEN := by
  simp [init]

/-- Within the first job (no timeout has fired, every `fopen` succeeds): while
fewer than `BUFFER_LEN` bytes have been accepted nothing has been written, no
file is open and the buffer holds the accepted bytes; when exactly
`BUFFER_LEN` have been accepted there has been one `fwrite`, of all of them. -/
theorem run_first_job_inv (I T lpt : Nat) (ops : List Op)
    (hopen : ∀ op ∈ ops, op.opens = true) (hjob : ∀ op ∈ ops, op.isTimeout = false) :
    (run I T (init lpt) ops).buffer.length = BUFFER_LEN ∧
    (run I T (init lpt) ops).data = (ledger ops).dataLatch ∧
    (run I T (init lpt) ops).ctrl = (ledger ops).control ∧
    ((ledger ops).accepted.length < BUFFER_LEN →
      flushes (run I T (init lpt) ops).events = [] ∧
      (run I T (init lpt) ops).file = none ∧
      (run I T (init lpt) ops).bcursor = (ledger ops).accepted.length ∧
      buffered (run I T (init lpt) ops) = (ledger ops).accepted) ∧
    ((ledger ops).accepted.length = BUFFER_LEN →
      ∃ h, flushes (run I T (init lpt) ops).events = [(h, (ledger ops).accepted)] ∧
        (run I T (init lpt) ops).bcursor = 0 ∧
        (run I T (init lpt) ops).file = some h) := by
  induction ops using List.reverseRecOn with
  | nil =>
    refine ⟨init_buffer_length lpt, rfl, rfl, ?_, ?_⟩
    · intro _
      simp [run, ledger, init, buffered, flushes, Ledger.start]
    · intro h
      simp [ledger, Ledger.start, BUFFER_LEN] at h
  | append_singleton ops op ih =>
    have hop : op.opens = true := hopen op (by simp)
    have hnt : op.isTimeout = false := hjob op (by simp)
    obtain ⟨i3, i4, i5, iA, iB⟩ :=
      ih (fun o ho => hopen o (by simp [ho])) (fun o ho => hjob o (by simp [ho]))
    rw [run_snoc, ledger_snoc]
    generalize run I T (init lpt) ops = s at i3 i4 i5 iA iB ⊢
    generalize ledger ops = l at i4 i5 iA iB ⊢
    cases op with
    | writeData v =>
      simp only [step, write_data, Ledger.observe]
      exact ⟨i3, rfl, i5, iA, iB⟩
    | writeControl v r =>
      simp only [step, Ledger.observe]
      obtain ⟨d1, d2, d3⟩ := write_ctrl_data I T v r s
      by_cases he : strobe_edge s.ctrl v
      · obtain ⟨e1, e2, e3, e4, -⟩ := write_ctrl_edge I T v r s he
        obtain ⟨h0, rfl⟩ : ∃ h0, r = some h0 := by
          cases r with
          | none => simp [Op.opens] at hop
          | some h0 => exact ⟨h0, rfl⟩
        rw [if_pos (by rw [← i5]; exact he)]
        refine ⟨by rw [d3]; exact i3, by rw [d1]; exact i4, by rw [d2]; rfl, ?_, ?_⟩
        · intro hlen
          simp only [List.length_append, List.length_singleton] at hlen
          obtain ⟨a1, a2, a3, a4⟩ := iA (by omega)
          have hb : s.bcursor + 1 < BUFFER_LEN := by rw [a3]; exact hlen
          rw [buffered, e1, e2, e3, e4, push_byte_below (some h0) s hb]
          refine ⟨a1, a2, by simp [a3], ?_⟩
          show List.take (s.bcursor + 1) (s.buffer.set s.bcursor s.data) = _
          rw [take_set_succ _ _ _ (by rw [i3]; omega), ← a4, i4]
          rfl
        · intro hlen
          simp only [List.length_append, List.length_singleton] at hlen
          obtain ⟨a1, a2, a3, a4⟩ := iA (by omega)
          have hb : s.bcursor + 1 = BUFFER_LEN := by rw [a3]; exact hlen
          have hne : BUFFER_LEN ≠ 0 := by decide
          have htk : (s.buffer.set s.bcursor s.data).take BUFFER_LEN
              = l.accepted ++ [l.dataLatch] := by
            rw [← hb, take_set_succ _ _ _ (by rw [i3]; omega), ← a4, i4]
            rfl
          refine ⟨h0, ?_, ?_, ?_⟩
          · rw [e4, push_byte_full (some h0) s hb]
            simp [flush_buffer, a2, hne, flushes_append, flushes, a1, htk]
          · rw [e2, push_byte_full (some h0) s hb]
            simp [flush_buffer, a2, hne]
          · rw [e3, push_byte_full (some h0) s hb]
            simp [flush_buffer, a2, hne]
      · obtain ⟨n1, n2, n3, n4, n5, n6⟩ := write_ctrl_no_edge I T v r s he
        rw [if_neg (by rw [← i5]; exact he)]
        refine ⟨by rw [n1]; exact i3, by rw [n5]; exact i4, by rw [n6]; rfl, ?_, ?_⟩
        · intro hlen
          rw [buffered, n1, n2, n3, n4]
          exact iA hlen
        · intro hlen
          rw [n2, n3, n4]
          exact iB hlen
    | readStatus =>
      simp only [step, read_status, Ledger.observe]
      exact ⟨i3, i4, i5, iA, iB⟩
    | pulseFire =>
      simp only [step, Ledger.observe]
      obtain ⟨p1, p2, p3, p4, p5, -, p7⟩ := pulse_timer_frame s
      refine ⟨by rw [p1]; exact i3, by rw [p4]; exact i4, by rw [p5]; exact i5, ?_, ?_⟩
      · intro hlen
        rw [buffered, p1, p2, p3, p7]
        exact iA hlen
      · intro hlen
        rw [p2, p3, p7]
        exact iB hlen
    | timeoutFire r => simp [Op.isTimeout] at hnt

/-- The timeout callback leaves no file and touches neither the buffer, the
data latch nor the control. -/
theorem timeout_timer_frame (r : Option Nat) (dev : printer_t) :
    (timeout_timer r dev).file = none ∧
    (timeout_timer r dev).data = dev.data ∧
    (timeout_timer r dev).ctrl = dev.ctrl := by
  obtain ⟨-, f2, f3, -⟩ := flush_buffer_frame r dev
  exact ⟨rfl, f2, f3⟩

/-- A file is open only after a byte was accepted since the last timeout,
whatever `fopen` returned. -/
theorem run_file_open_job (I T lpt : Nat) (ops : List Op) :
    (run I T (init lpt) ops).ctrl = (ledger ops).control ∧
    ((run I T (init lpt) ops).file.isSome = true → 1 ≤ (ledger ops).job) := by
  induction ops using List.reverseRecOn with
  | nil => exact ⟨rfl, fun h => by simp [run, init] at h⟩
  | append_singleton ops op ih =>
    obtain ⟨i5, iF⟩ := ih
    rw [run_snoc, ledger_snoc]
    generalize run I T (init lpt) ops = s at i5 iF ⊢
    generalize ledger ops = l at i5 iF ⊢
    cases op with
    | writeData v => exact ⟨i5, iF⟩
    | writeControl v r =>
      simp only [step, Ledger.observe]
      obtain ⟨-, d2, -⟩ := write_ctrl_data I T v r s
      by_cases he : strobe_edge s.ctrl v
      · rw [if_pos (by rw [← i5]; exact he)]
        exact ⟨d2, fun _ => Nat.le_add_left 1 l.job⟩
      · obtain ⟨-, -, n3, -⟩ := write_ctrl_no_edge I T v r s he
        rw [if_neg (by rw [← i5]; exact he), n3]
        exact ⟨d2, iF⟩
    | readStatus => exact ⟨i5, iF⟩
    | pulseFire =>
      simp only [step, Ledger.observe]
      obtain ⟨-, -, p3, -, p5, -⟩ := pulse_timer_frame s
      rw [p3, p5]
      exact ⟨i5, iF⟩
    | timeoutFire r =>
      simp only [step, Ledger.observe]
      obtain ⟨t1, -, t3⟩ := timeout_timer_frame r s
      rw [t1, t3]
      exact ⟨i5, fun h => by simp at h⟩

/-- With every `fopen` succeeding, the cursor counts the bytes accepted since
the last timeout modulo `BUFFER_LEN`, and a file is open exactly when at least
`BUFFER_LEN` of them were accepted. -/
theorem run_job_inv (I T lpt : Nat) (ops : List Op)
    (hopen : ∀ op ∈ ops, op.opens = true) :
    (run I T (init lpt) ops).ctrl = (ledger ops).control ∧
    (run I T (init lpt) ops).bcursor = (ledger ops).job % BUFFER_LEN ∧
    ((run I T (init lpt) ops).file.isSome = true ↔ BUFFER_LEN ≤ (ledger ops).job) := by
  induction ops using List.reverseRecOn with
  | nil =>
    refine ⟨rfl, rfl, ?_⟩
    have h1 : (run I T (init lpt) []).file.isSome = false := rfl
    have h2 : (ledger []).job = 0 := rfl
    rw [h1, h2]
    simp [BUFFER_LEN]
  | append_singleton ops op ih =>
    have hop : op.opens = true := hopen op (by simp)
    obtain ⟨i5, iC, iF⟩ := ih (fun o ho => hopen o (by simp [ho]))
    rw [run_snoc, ledger_snoc]
    generalize run I T (init lpt) ops = s at i5 iC iF ⊢
    generalize ledger ops = l at i5 iC iF ⊢
    cases op with
    | writeData v => exact ⟨i5, iC, iF⟩
    | writeControl v r =>
      simp only [step, Ledger.observe]
      obtain ⟨-, d2, -⟩ := write_ctrl_data I T v r s
      by_cases he : strobe_edge s.ctrl v
      · obtain ⟨-, e2, e3, -⟩ := write_ctrl_edge I T v r s he
        obtain ⟨h0, rfl⟩ : ∃ h0, r = some h0 := by
          cases r with
          | none => simp [Op.opens] at hop
          | some h0 => exact ⟨h0, rfl⟩
        rw [if_pos (by rw [← i5]; exact he), e2, e3]
        refine ⟨d2, ?_⟩
        have hlt : s.bcursor < BUFFER_LEN := by
          rw [iC]; exact Nat.mod_lt _ (by decide)
        by_cases hb : s.bcursor + 1 < BUFFER_LEN
        · rw [push_byte_below (some h0) s hb]
          simp only [iF]
          unfold BUFFER_LEN at *
          omega
        · have hb' : s.bcursor + 1 = BUFFER_LEN := by omega
          have hne : BUFFER_LEN ≠ 0 := by decide
          rw [push_byte_full (some h0) s hb']
          have hj : BUFFER_LEN ≤ l.job + 1 ∧ (l.job + 1) % BUFFER_LEN = 0 := by
            unfold BUFFER_LEN at *
            omega
          rcases hf : s.file with _ | f <;> simp [flush_buffer, hf, hne, hj.1, hj.2]
      · obtain ⟨-, n2, n3, -⟩ := write_ctrl_no_edge I T v r s he
        rw [if_neg (by rw [← i5]; exact he), n2, n3]
        exact ⟨d2, iC, iF⟩
    | readStatus => exact ⟨i5, iC, iF⟩
    | pulseFire =>
      simp only [step, Ledger.observe]
      obtain ⟨-, p2, p3, -, p5, -⟩ := pulse_timer_frame s
      rw [p2, p3, p5]
      exact ⟨i5, iC, iF⟩
    | timeoutFire r =>
      obtain ⟨h0, rfl⟩ : ∃ h0, r = some h0 := by
        cases r with
        | none => simp [Op.opens] at hop
        | some h0 => exact ⟨h0, rfl⟩
      simp only [step, Ledger.observe]
      obtain ⟨-, t2, t3, -, -, t6⟩ := timeout_timer_stream h0 s
      rw [t2, t3, t6]
      refine ⟨i5, rfl, ?_⟩
      simp [BUFFER_LEN]

/-! ## Strobing a fresh device -/

theorem strobes_opens (n h : Nat) : ∀ op ∈ strobes n (some h), op.opens = true := by
  induction n with
  | zero => simp [strobes]
  | succ n ih =>
    intro op hop
    simp only [strobes, List.mem_cons] at hop
    rcases hop with rfl | rfl | hop
    · rfl
    · rfl
    · exact ih op hop

theorem strobes_no_timeout (n : Nat) (r : Option Nat) :
    ∀ op ∈ strobes n r, op.isTimeout = false := by
  induction n with
  | zero => simp [strobes]
  | succ n ih =>
    intro op hop
    simp only [strobes, List.mem_cons] at hop
    rcases hop with rfl | rfl | hop
    · rfl
    · rfl
    · exact ih op hop

theorem strobes_schedulable (I T n : Nat) (r : Option Nat) (dev : printer_t) :
    schedulable I T dev (strobes n r) = true := by
  induction n generalizing dev with
  | zero => rfl
  | succ n ih => simp [strobes, schedulable, enabled, ih]

theorem observe_strobes (n : Nat) (r : Option Nat) (l : Ledger) :
    ((strobes n r).foldl Ledger.observe l).accepted
      = l.accepted ++ List.replicate n l.dataLatch := by
  induction n generalizing l with
  | zero => simp [strobes]
  | succ n ih =>
    have h1 : ¬ strobe_edge l.control 1 := by simp [strobe_edge]
    have h2 : strobe_edge (1 % 256) 0 := by decide
    simp only [strobes, List.foldl_cons, Ledger.observe, if_neg h1, if_pos h2]
    rw [ih]
    simp [List.replicate_succ]

theorem observe_strobes_job (n : Nat) (r : Option Nat) (l : Ledger) :
    ((strobes n r).foldl Ledger.observe l).job = l.job + n := by
  induction n generalizing l with
  | zero => simp [strobes]
  | succ n ih =>
    have h1 : ¬ strobe_edge l.control 1 := by simp [strobe_edge]
    have h2 : strobe_edge (1 % 256) 0 := by decide
    simp only [strobes, List.foldl_cons, Ledger.observe, if_neg h1, if_pos h2]
    rw [ih]
    show l.job + 1 + n = l.job + (n + 1)
    omega

theorem ledger_strobes_job (n : Nat) (r : Option Nat) :
    (ledger (strobes n r)).job = n := by
  simp [ledger, observe_strobes_job, Ledger.start]

theorem ledger_strobes (n : Nat) (r : Option Nat) :
    (ledger (strobes n r)).accepted = List.replicate n 0 := by
  simp [ledger, observe_strobes, Ledger.start]

/-- Strobing while every `fopen` fails: each strobe advances the cursor by one,
also at and beyond `BUFFER_LEN`, and no file is ever open. -/
theorem run_strobes_open_failing (I T n : Nat) (dev : printer_t)
    (hf : dev.file = none) (hn : dev.bcursor + n < U32) :
    (run I T dev (strobes n none)).bcursor = dev.bcursor + n ∧
    (run I T dev (strobes n none)).file = none := by
  induction n generalizing dev with
  | zero => exact ⟨rfl, hf⟩
  | succ n ih =>
    have h1 : ¬ strobe_edge dev.ctrl 1 := by simp [strobe_edge]
    obtain ⟨-, n2, n3, -, -, n6⟩ := write_ctrl_no_edge I T 1 none dev h1
    have h2 : strobe_edge (write_ctrl I T 1 none dev).ctrl 0 := by rw [n6]; decide
    obtain ⟨-, e2, e3, -⟩ := write_ctrl_edge I T 0 none (write_ctrl I T 1 none dev) h2
    have hmod : (dev.bcursor + 1) % U32 = dev.bcursor + 1 := by
      apply Nat.mod_eq_of_lt; omega
    have hb : (push_byte none (write_ctrl I T 1 none dev)).bcursor = dev.bcursor + 1 ∧
        (push_byte none (write_ctrl I T 1 none dev)).file = none := by
      simp only [push_byte, n2, hmod]
      split_ifs <;> simp [flush_buffer, n3, hf]
    have := ih (write_ctrl I T 0 none (write_ctrl I T 1 none dev))
      (by rw [e3]; exact hb.2) (by rw [e2, hb.1]; omega)
    rw [e2, hb.1] at this
    show (run I T (write_ctrl I T 0 none (write_ctrl I T 1 none dev)) (strobes n none)).bcursor
        = _ ∧ _
    refine ⟨by rw [this.1]; omega, this.2⟩

/-! ## Reset and acknowledge -/

/-- On a reset rising edge the statements before the strobe test clear the
acknowledge and `select` and disable both timers. -/
theorem ctrl_lines_reset (val : Nat) (dev : printer_t) (h : reset_edge dev.ctrl val) :
    (ctrl_lines val dev).ack = 0 ∧
    (ctrl_lines val dev).pulse_timer = none ∧
    (ctrl_lines val dev).timeout_timer = none ∧
    (ctrl_lines val dev).select = 0 := by
  have h4 := (reset_test_iff dev.ctrl val).2 h
  simp only [ctrl_lines, reset_printer]
  split_ifs <;> simp_all

theorem pulse_timer_ack (dev : printer_t) : (pulse_timer dev).ack = 0 := by
  simp only [pulse_timer]
  split_ifs with h
  · rfl
  · simpa using h

/-- What the statements before the strobe test leave in `autofeed` and
`select`. -/
theorem ctrl_lines_decode (val : Nat) (dev : printer_t) :
    (ctrl_lines val dev).autofeed = (if val.testBit 1 = true then 1 else 0) ∧
    (ctrl_lines val dev).select =
      (if reset_edge dev.ctrl val then 0 else if val.testBit 3 = true then 1 else dev.select) := by
  have h2 : val % U8 &&& 0x02 ≠ 0 ↔ val.testBit 1 = true := by
    rw [and_2_ne_zero, testBit_mod_U8 _ _ (by norm_num)]
  have h8 : val % U8 &&& 0x08 ≠ 0 ↔ val.testBit 3 = true := by
    rw [and_8_ne_zero, testBit_mod_U8 _ _ (by norm_num)]
  have h4 := reset_test_iff dev.ctrl val
  by_cases b2 : reset_edge dev.ctrl val
  · have c4 := h4.2 b2
    rw [if_pos b2]
    clear h4 b2
    simp only [ctrl_lines, reset_printer]
    split_ifs <;> simp_all
  · have c4 := h4.not.2 b2
    rw [if_neg b2]
    clear h4 b2
    simp only [ctrl_lines, reset_printer]
    split_ifs <;> simp_all

/-- Without a reset rising edge the statements before the strobe test leave the
acknowledge and both timers as they were. -/
theorem ctrl_lines_no_reset (val : Nat) (dev : printer_t) (h : ¬ reset_edge dev.ctrl val) :
    (ctrl_lines val dev).ack = dev.ack ∧
    (ctrl_lines val dev).pulse_timer = dev.pulse_timer ∧
    (ctrl_lines val dev).timeout_timer = dev.timeout_timer := by
  have h4 := (reset_test_iff dev.ctrl val).not.2 h
  simp only [ctrl_lines, reset_printer]
  split_ifs <;> simp_all

/-- `push_byte` leaves `select`, `autofeed` and the owner as they were. -/
theorem push_byte_handshake (r : Option Nat) (dev : printer_t) :
    (push_byte r dev).select = dev.select ∧
    (push_byte r dev).autofeed = dev.autofeed ∧
    (push_byte r dev).lpt = dev.lpt := by
  simp only [push_byte]
  split_ifs
  · obtain ⟨-, -, -, -, f5, f6, -, -, f9⟩ := flush_buffer_frame r
      { dev with buffer := dev.buffer.set dev.bcursor dev.data
                 bcursor := (dev.bcursor + 1) % U32 }
    rw [f5, f6, f9]; simp
  · simp

/-- `write_ctrl` leaves in `select` and `autofeed` what the statements before
the strobe test put there. -/
theorem write_ctrl_lines (I T val : Nat) (r : Option Nat) (dev : printer_t) :
    (write_ctrl I T val r dev).select = (ctrl_lines val dev).select ∧
    (write_ctrl I T val r dev).autofeed = (ctrl_lines val dev).autofeed := by
  rw [write_ctrl_eq]
  split_ifs
  · obtain ⟨p1, p2, -⟩ := push_byte_handshake r (ctrl_lines val dev)
    exact ⟨p1, p2⟩
  · exact ⟨rfl, rfl⟩

/-- Without a strobe falling edge `write_ctrl` leaves in the acknowledge and
the timers what the statements before the strobe test put there. -/
theorem write_ctrl_no_edge_lines (I T val : Nat) (r : Option Nat) (dev : printer_t)
    (h : ¬ strobe_edge dev.ctrl val) :
    (write_ctrl I T val r dev).ack = (ctrl_lines val dev).ack ∧
    (write_ctrl I T val r dev).pulse_timer = (ctrl_lines val dev).pulse_timer ∧
    (write_ctrl I T val r dev).timeout_timer = (ctrl_lines val dev).timeout_timer := by
  rw [write_ctrl_eq, if_neg (by rw [strobe_test_lines]; exact h)]
  exact ⟨rfl, rfl, rfl⟩

/-- The acknowledge is `0` or `1`, and `1` only while the pulse timer is armed:
kept by every operation. -/
theorem step_ack_inv (I T : Nat) (dev : printer_t) (op : Op)
    (h : (dev.ack = 0 ∨ dev.ack = 1) ∧ (dev.ack = 1 → dev.pulse_timer.isSome = true)) :
    ((step I T dev op).ack = 0 ∨ (step I T dev op).ack = 1) ∧
    ((step I T dev op).ack = 1 → (step I T dev op).pulse_timer.isSome = true) := by
  cases op with
  | writeData v => exact h
  | writeControl v r =>
    simp only [step]
    by_cases he : strobe_edge dev.ctrl v
    · obtain ⟨-, -, -, -, -, e6, e7, -⟩ := write_ctrl_edge I T v r dev he
      rw [e6, e7]
      exact ⟨Or.inr rfl, fun _ => rfl⟩
    · obtain ⟨n1, n2, -⟩ := write_ctrl_no_edge_lines I T v r dev he
      rw [n1, n2]
      by_cases hr : reset_edge dev.ctrl v
      · obtain ⟨r1, -, -, -⟩ := ctrl_lines_reset v dev hr
        rw [r1]
        exact ⟨Or.inl rfl, fun h0 => by simp at h0⟩
      · obtain ⟨q1, q2, -⟩ := ctrl_lines_no_reset v dev hr
        rw [q1, q2]
        exact h
  | readStatus => exact h
  | pulseFire =>
    simp only [step]
    rw [pulse_timer_ack]
    exact ⟨Or.inl rfl, fun h0 => by simp at h0⟩
  | timeoutFire r =>
    simp only [step]
    obtain ⟨-, -, -, f4, -, -, f7, -, -⟩ := flush_buffer_frame r dev
    have a : (timeout_timer r dev).ack = dev.ack := f4
    have b : (timeout_timer r dev).pulse_timer = dev.pulse_timer := f7
    rw [a, b]
    exact h

/-- With every `fopen` succeeding, while the timeout timer is armed a byte is
buffered or a file is open. -/
theorem run_timeout_armed_inv (I T lpt : Nat) (ops : List Op)
    (hopen : ∀ op ∈ ops, op.opens = true) :
    (run I T (init lpt) ops).timeout_timer.isSome = true →
      (run I T (init lpt) ops).bcursor ≠ 0 ∨ (run I T (init lpt) ops).file.isSome = true := by
  induction ops using List.reverseRecOn with
  | nil => intro h; simp [run, init] at h
  | append_singleton ops op ih =>
    have hprev : ∀ o ∈ ops, o.opens = true := fun o ho => hopen o (by simp [ho])
    have hop : op.opens = true := hopen op (by simp)
    obtain ⟨-, hlt, -, -, -⟩ := run_stream_inv I T lpt ops hprev
    have ih := ih hprev
    rw [run_snoc]
    generalize run I T (init lpt) ops = s at hlt ih ⊢
    cases op with
    | writeData v => exact ih
    | writeControl v r =>
      simp only [step]
      by_cases he : strobe_edge s.ctrl v
      · obtain ⟨-, e2, e3, -⟩ := write_ctrl_edge I T v r s he
        obtain ⟨h0, rfl⟩ : ∃ h0, r = some h0 := by
          cases r with
          | none => simp [Op.opens] at hop
          | some h0 => exact ⟨h0, rfl⟩
        intro _
        rw [e2, e3]
        by_cases hb : s.bcursor + 1 < BUFFER_LEN
        · rw [push_byte_below (some h0) s hb]
          exact Or.inl (Nat.succ_ne_zero _)
        · rw [push_byte_full (some h0) s (by omega)]
          have hne : BUFFER_LEN ≠ 0 := by decide
          right
          rcases hf : s.file with _ | f <;> simp [flush_buffer, hf, hne]
      · obtain ⟨-, n2, n3, -⟩ := write_ctrl_no_edge I T v r s he
        obtain ⟨-, -, m3⟩ := write_ctrl_no_edge_lines I T v r s he
        rw [n2, n3, m3]
        by_cases hr : reset_edge s.ctrl v
        · obtain ⟨-, -, r3, -⟩ := ctrl_lines_reset v s hr
          rw [r3]
          intro h; simp at h
        · obtain ⟨-, -, q3⟩ := ctrl_lines_no_reset v s hr
          rw [q3]
          exact ih
    | readStatus => exact ih
    | pulseFire =>
      simp only [step]
      obtain ⟨-, p2, p3, -⟩ := pulse_timer_frame s
      have p8 : (pulse_timer s).timeout_timer = s.timeout_timer := by
        simp only [pulse_timer]
        split_ifs <;> rfl
      rw [p2, p3, p8]
      exact ih
    | timeoutFire r =>
      intro h
      have : (timeout_timer r s).timeout_timer = none := rfl
      simp [step, this] at h

/-- When a byte is buffered or a file is open and a needed `fopen` succeeds,
the timeout callback closes an open stream. -/
theorem timeout_timer_closes_open (h : Nat) (dev : printer_t)
    (hjob : dev.bcursor ≠ 0 ∨ dev.file.isSome = true) :
    ∃ f, (timeout_timer (some h) dev).events =
      (flush_buffer (some h) dev).events ++ [Event.fclose f] := by
  by_cases hc : dev.bcursor = 0
  · rcases hjob with hj | hj
    · exact absurd hc hj
    · obtain ⟨f, hf⟩ := Option.isSome_iff_exists.1 hj
      exact ⟨f, by simp [timeout_timer, flush_buffer, hc, hf]⟩
  · rcases hf : dev.file with _ | f
    · exact ⟨h, by simp [timeout_timer, flush_buffer, hc, hf]⟩
    · exact ⟨f, by simp [timeout_timer, flush_buffer, hc, hf]⟩

theorem ack_window_snoc (ops : List Op) (op : Op) :
    ack_window (ops ++ [op]) = (ack_window ops).observe op := by
  simp [ack_window, List.foldl_append]

theorem pulse_timer_disarms (dev : printer_t) : (pulse_timer dev).pulse_timer = none := rfl

/-- The timeout callback leaves the acknowledge and the pulse timer as they
were. -/
theorem timeout_timer_ack (r : Option Nat) (dev : printer_t) :
    (timeout_timer r dev).ack = dev.ack ∧
    (timeout_timer r dev).pulse_timer = dev.pulse_timer := by
  obtain ⟨-, -, -, f4, -, -, f7, -, -⟩ := flush_buffer_frame r dev
  exact ⟨f4, f7⟩

/-- On a device whose cursor has reached the end of the buffer, the store of
`push_byte` is outside the list, and the byte stream of the embedding is left
as it was. -/
theorem push_byte_full_stream (r : Option Nat) (dev : printer_t)
    (hc : dev.bcursor = BUFFER_LEN) (hl : dev.buffer.length = BUFFER_LEN) :
    byte_stream (push_byte r dev) = byte_stream dev := by
  have hset : dev.buffer.set BUFFER_LEN dev.data = dev.buffer := by
    apply List.set_eq_of_length_le
    rw [hl]
  have hm : (BUFFER_LEN + 1) % U32 = BUFFER_LEN + 1 := by decide
  have hge : BUFFER_LEN + 1 ≥ BUFFER_LEN := Nat.le_succ _
  have t1 : dev.buffer.take (BUFFER_LEN + 1) = dev.buffer :=
    List.take_of_length_le (by rw [hl]; exact Nat.le_succ _)
  have t2 : dev.buffer.take BUFFER_LEN = dev.buffer :=
    List.take_of_length_le (by rw [hl])
  simp only [push_byte, hc, hset, hm, if_pos hge]
  rcases hf : dev.file with _ | f <;> rcases r with _ | h0 <;>
    simp [flush_buffer, byte_stream, buffered, hf, hc, t1, t2, written_append, written]

/-- A strobe falling edge on a device whose cursor has reached the end of the
buffer does not append the data latch to the byte stream of the embedding. -/
theorem write_ctrl_edge_full_stream (I T val : Nat) (r : Option Nat) (dev : printer_t)
    (hc : dev.bcursor = BUFFER_LEN) (hl : dev.buffer.length = BUFFER_LEN)
    (he : strobe_edge dev.ctrl val) :
    byte_stream (write_ctrl I T val r dev) ≠ byte_stream dev ++ [dev.data] := by
  intro hs
  obtain ⟨e1, e2, -, e4, -⟩ := write_ctrl_edge I T val r dev he
  have hp := push_byte_full_stream r dev hc hl
  simp only [byte_stream, buffered] at hs hp
  rw [e1, e2, e4, hp] at hs
  have := congrArg List.length hs
  simp at this

/-- A control write can always follow a schedulable sequence. -/
theorem schedulable_snoc_write (I T v : Nat) (r : Option Nat) (ops : List Op) :
    ∀ dev : printer_t, schedulable I T dev ops = true →
      schedulable I T dev (ops ++ [Op.writeControl v r]) = true := by
  induction ops with
  | nil => intro dev _; rfl
  | cons o os ih =>
    intro dev h
    simp only [List.cons_append, schedulable, Bool.and_eq_true] at h ⊢
    exact ⟨h.1, ih _ h.2⟩

/-- The state of `full_unflushed`: the cursor is at the end of the buffer and
the stored control has the strobe bit set. -/
theorem full_unflushed_state :
    full_unflushed.bcursor = BUFFER_LEN ∧
    full_unflushed.buffer.length = BUFFER_LEN ∧
    strobe_edge full_unflushed.ctrl 0x00 := by
  have hrun : full_unflushed =
      write_ctrl 1 1 0x01 none (run 1 1 (init 0) (strobes BUFFER_LEN none)) :=
    run_snoc 1 1 (init 0) (strobes BUFFER_LEN none) (Op.writeControl 0x01 none)
  have hne : ¬ strobe_edge (run 1 1 (init 0) (strobes BUFFER_LEN none)).ctrl 0x01 := by
    simp [strobe_edge]
  obtain ⟨-, n2, -, -, -, n6⟩ :=
    write_ctrl_no_edge 1 1 0x01 none (run 1 1 (init 0) (strobes BUFFER_LEN none)) hne
  have h0 := (run_strobes_open_failing 1 1 BUFFER_LEN (init 0) rfl (by decide)).1
  refine ⟨?_, ?_, ?_⟩
  · rw [hrun, n2, h0]
    exact Nat.zero_add _
  · rw [hrun, (write_ctrl_data 1 1 0x01 none _).2.2, run_buffer_length]
    exact init_buffer_length 0
  · rw [hrun, n6]
    decide

/-! ## Claims -/

/-- C1 (data integrity of a job).  Start from a freshly initialised device and
let the host and the pulse timer perform any sequence of operations in which
every `fopen` succeeds; when the job timeout then fires, the bytes handed to
`fwrite`, concatenated in call order, are exactly the data-latch values that
were current at the strobe falling edges, in the order of those edges, and no
byte is left in the buffer. -/
theorem job_bytes_written_in_order (I T lpt : Nat) (ops : List Op) (h : Nat)
    (hopen : ∀ op ∈ ops, op.opens = true) :
    written (timeout_timer (some h) (run I T (init lpt) ops)).events = (ledger ops).accepted ∧
    (timeout_timer (some h) (run I T (init lpt) ops)).bcursor = 0 := by
  obtain ⟨i1, -, -, -, -⟩ := run_stream_inv I T lpt ops hopen
  obtain ⟨t1, t2, -, -, -, -⟩ := timeout_timer_stream h (run I T (init lpt) ops)
  refine ⟨?_, t2⟩
  rw [← i1, ← t1]
  simp [byte_stream, buffered, t2]

/-- Witness of C1: data `0x41`, control `0x01` then `0x00`, timeout; the file
is opened, receives exactly `[0x41]` and is closed. -/
theorem job_bytes_written_in_order_witness :
    (∀ op ∈ [Op.writeData 0x41, Op.writeControl 0x01 (some 7), Op.writeControl 0x00 (some 7)],
        op.opens = true) ∧
    (written (timeout_timer (some 7) (run 1 1 (init 0)
        [Op.writeData 0x41, Op.writeControl 0x01 (some 7),
          Op.writeControl 0x00 (some 7)])).events =
      (ledger [Op.writeData 0x41, Op.writeControl 0x01 (some 7),
        Op.writeControl 0x00 (some 7)]).accepted ∧
     (timeout_timer (some 7) (run 1 1 (init 0)
        [Op.writeData 0x41, Op.writeControl 0x01 (some 7),
          Op.writeControl 0x00 (some 7)])).bcursor = 0) ∧
    (ledger [Op.writeData 0x41, Op.writeControl 0x01 (some 7),
        Op.writeControl 0x00 (some 7)]).accepted = [0x41] ∧
    (timeout_timer (some 7) (run 1 1 (init 0)
        [Op.writeData 0x41, Op.writeControl 0x01 (some 7),
          Op.writeControl 0x00 (some 7)])).events =
      [Event.fopen_ok 7, Event.fwrite 7 [0x41], Event.fclose 7] :=
  ⟨by decide,
   job_bytes_written_in_order 1 1 0 _ 7 (by decide),
   by decide,
   by decide⟩

/-- Inside the buffer.  On a device whose cursor is below `BUFFER_LEN`,
`write_ctrl` appends exactly one byte, the current data latch, to the byte
stream (written bytes followed by buffered bytes) if and only if the write is
a strobe falling edge; in every other case the buffer, the cursor, the file
handle and the log of file calls are unchanged. -/
theorem write_ctrl_accepts_on_strobe_edge (I T val : Nat) (r : Option Nat) (dev : printer_t)
    (hc : dev.bcursor < BUFFER_LEN) (hl : dev.buffer.length = BUFFER_LEN) :
    (byte_stream (write_ctrl I T val r dev) = byte_stream dev ++ [dev.data] ↔
      strobe_edge dev.ctrl val) ∧
    (¬ strobe_edge dev.ctrl val →
      (write_ctrl I T val r dev).buffer = dev.buffer ∧
      (write_ctrl I T val r dev).bcursor = dev.bcursor ∧
      (write_ctrl I T val r dev).file = dev.file ∧
      (write_ctrl I T val r dev).events = dev.events) := by
  constructor
  · constructor
    · intro hs
      by_contra he
      obtain ⟨n1, n2, -, n4, -, -⟩ := write_ctrl_no_edge I T val r dev he
      simp only [byte_stream, buffered, n1, n2, n4] at hs
      have := congrArg List.length hs
      simp at this
    · intro he
      obtain ⟨e1, e2, -, e4, -⟩ := write_ctrl_edge I T val r dev he
      obtain ⟨q1, -⟩ := push_byte_stream r dev hc hl
      simp only [byte_stream, buffered] at q1 ⊢
      rw [e1, e2, e4, q1]
  · intro he
    obtain ⟨n1, n2, n3, n4, -, -⟩ := write_ctrl_no_edge I T val r dev he
    exact ⟨n1, n2, n3, n4⟩

/-- An instance inside the buffer: a fresh device with `0x41` latched and the
strobe raised; control `0x00` is a strobe falling edge and the stream becomes
`[0x41]`. -/
theorem write_ctrl_accepts_on_strobe_edge_witness :
    strobe_raised.bcursor < BUFFER_LEN ∧
    strobe_raised.buffer.length = BUFFER_LEN ∧
    ((byte_stream (write_ctrl 1 1 0x00 none strobe_raised) =
        byte_stream strobe_raised ++ [strobe_raised.data] ↔
      strobe_edge strobe_raised.ctrl 0x00) ∧
     (¬ strobe_edge strobe_raised.ctrl 0x00 →
      (write_ctrl 1 1 0x00 none strobe_raised).buffer = strobe_raised.buffer ∧
      (write_ctrl 1 1 0x00 none strobe_raised).bcursor = strobe_raised.bcursor ∧
      (write_ctrl 1 1 0x00 none strobe_raised).file = strobe_raised.file ∧
      (write_ctrl 1 1 0x00 none strobe_raised).events = strobe_raised.events)) ∧
    strobe_edge strobe_raised.ctrl 0x00 ∧
    byte_stream (write_ctrl 1 1 0x00 none strobe_raised) = [0x41] :=
  ⟨by decide, (run_buffer_length 1 1 _ _).trans (init_buffer_length 0),
   write_ctrl_accepts_on_strobe_edge 1 1 0x00 none strobe_raised (by decide)
     ((run_buffer_length 1 1 _ _).trans (init_buffer_length 0)),
   by decide, by decide⟩

/-- C2 (a byte is accepted exactly on a strobe falling edge), evaluated where
it fails.  After `BUFFER_LEN` strobes during which `fopen` failed, and with the
strobe raised again, the cursor equals the size of the buffer.  Control `0x00`
is then a strobe falling edge, the store `buffer[bcursor]` of `push_byte` is at
an index outside the buffer, and the byte stream does not become the old
stream followed by the data latch, whether `fopen` fails again or succeeds. -/
theorem strobe_edge_at_full_buffer :
    schedulable 1 1 (init 0) (strobes BUFFER_LEN none ++ [Op.writeControl 0x01 none]) = true ∧
    full_unflushed.bcursor = BUFFER_LEN ∧
    full_unflushed.buffer.length = BUFFER_LEN ∧
    strobe_edge full_unflushed.ctrl 0x00 ∧
    ¬ (full_unflushed.bcursor < full_unflushed.buffer.length) ∧
    byte_stream (write_ctrl 1 1 0x00 none full_unflushed)
      ≠ byte_stream full_unflushed ++ [full_unflushed.data] ∧
    byte_stream (write_ctrl 1 1 0x00 (some 7) full_unflushed)
      ≠ byte_stream full_unflushed ++ [full_unflushed.data] := by
  obtain ⟨hcur, hlen, hedge⟩ := full_unflushed_state
  refine ⟨schedulable_snoc_write 1 1 0x01 none _ _ (strobes_schedulable 1 1 BUFFER_LEN none (init 0)),
    hcur, hlen, hedge, ?_, ?_, ?_⟩
  · rw [hcur, hlen]
    exact Nat.lt_irrefl _
  · exact write_ctrl_edge_full_stream 1 1 0x00 none full_unflushed hcur hlen hedge
  · exact write_ctrl_edge_full_stream 1 1 0x00 (some 7) full_unflushed hcur hlen hedge

/-- C3 (buffer-full flush).  On a freshly initialised device, with every `fopen`
succeeding and no timeout firing: once exactly `BUFFER_LEN` bytes have been
accepted there has been exactly one `fwrite`, carrying all of them in order,
the cursor is `0` and the file is open; while between 1 and `BUFFER_LEN - 1`
bytes have been accepted there has been no `fwrite`. -/
theorem buffer_full_flushes_once (I T lpt : Nat) (ops : List Op)
    (hopen : ∀ op ∈ ops, op.opens = true) (hjob : ∀ op ∈ ops, op.isTimeout = false) :
    ((ledger ops).accepted.length = BUFFER_LEN →
      ∃ h, flushes (run I T (init lpt) ops).events = [(h, (ledger ops).accepted)] ∧
        (run I T (init lpt) ops).bcursor = 0 ∧
        (run I T (init lpt) ops).file = some h) ∧
    (1 ≤ (ledger ops).accepted.length ∧ (ledger ops).accepted.length < BUFFER_LEN →
      flushes (run I T (init lpt) ops).events = []) := by
  obtain ⟨-, -, -, iA, iB⟩ := run_first_job_inv I T lpt ops hopen hjob
  exact ⟨iB, fun h => (iA h.2).1⟩

/-- Witness of C3: the host strobes `BUFFER_LEN` times. -/
theorem buffer_full_flushes_once_witness :
    (∀ op ∈ strobes BUFFER_LEN (some 7), op.opens = true) ∧
    (∀ op ∈ strobes BUFFER_LEN (some 7), op.isTimeout = false) ∧
    (ledger (strobes BUFFER_LEN (some 7))).accepted.length = BUFFER_LEN ∧
    (((ledger (strobes BUFFER_LEN (some 7))).accepted.length = BUFFER_LEN →
      ∃ h, flushes (run 1 1 (init 0) (strobes BUFFER_LEN (some 7))).events
          = [(h, (ledger (strobes BUFFER_LEN (some 7))).accepted)] ∧
        (run 1 1 (init 0) (strobes BUFFER_LEN (some 7))).bcursor = 0 ∧
        (run 1 1 (init 0) (strobes BUFFER_LEN (some 7))).file = some h) ∧
    (1 ≤ (ledger (strobes BUFFER_LEN (some 7))).accepted.length ∧
        (ledger (strobes BUFFER_LEN (some 7))).accepted.length < BUFFER_LEN →
      flushes (run 1 1 (init 0) (strobes BUFFER_LEN (some 7))).events = [])) :=
  ⟨strobes_opens BUFFER_LEN 7, strobes_no_timeout BUFFER_LEN (some 7),
   by rw [ledger_strobes]; simp,
   buffer_full_flushes_once 1 1 0 (strobes BUFFER_LEN (some 7))
     (strobes_opens BUFFER_LEN 7) (strobes_no_timeout BUFFER_LEN (some 7))⟩

/-- C6 (cursor bound), evaluated where it fails: the host strobes `BUFFER_LEN`
times and the `fopen` of the buffer-full flush fails.  The operation returns
with the cursor equal to `BUFFER_LEN`, and after one more strobe, whose store
is at index `BUFFER_LEN`, the cursor is `BUFFER_LEN + 1`. -/
theorem cursor_reaches_buffer_len_when_open_fails :
    schedulable 1 1 (init 0) (strobes (BUFFER_LEN + 1) none) = true ∧
    (run 1 1 (init 0) (strobes BUFFER_LEN none)).bcursor = BUFFER_LEN ∧
    (run 1 1 (init 0) (strobes BUFFER_LEN none)).buffer.length = BUFFER_LEN ∧
    (run 1 1 (init 0) (strobes (BUFFER_LEN + 1) none)).bcursor = BUFFER_LEN + 1 := by
  refine ⟨strobes_schedulable _ _ _ _ _, ?_, ?_, ?_⟩
  · have := (run_strobes_open_failing 1 1 BUFFER_LEN (init 0) rfl (by decide)).1
    rw [this]; rfl
  · exact (run_buffer_length 1 1 _ _).trans (init_buffer_length 0)
  · have := (run_strobes_open_failing 1 1 (BUFFER_LEN + 1) (init 0) rfl (by decide)).1
    rw [this]; rfl

/-- C4 (job timeout).  On a device with a buffered byte or an open file, when a
needed `fopen` succeeds, the timeout callback writes the buffered bytes to the
file (opening it first when none was open), closes that file, and leaves the
cursor at `0`, no file, and its own timer disabled; the data latch, control,
acknowledge, select, autofeed and the pulse timer are unchanged. -/
theorem timeout_flushes_and_closes (r : Option Nat) (dev : printer_t)
    (hjob : dev.bcursor ≠ 0 ∨ dev.file.isSome = true)
    (hopen : dev.bcursor ≠ 0 → dev.file = none → r.isSome = true) :
    (∃ h, (dev.file = some h ∨ (dev.file = none ∧ r = some h)) ∧
      (timeout_timer r dev).events =
        dev.events ++
          (if dev.bcursor ≠ 0 then
            (if dev.file = none then [Event.fopen_ok h] else []) ++
              [Event.fwrite h (buffered dev)]
          else []) ++ [Event.fclose h]) ∧
    (timeout_timer r dev).bcursor = 0 ∧
    (timeout_timer r dev).file = none ∧
    (timeout_timer r dev).timeout_timer = none ∧
    (timeout_timer r dev).data = dev.data ∧
    (timeout_timer r dev).ctrl = dev.ctrl ∧
    (timeout_timer r dev).ack = dev.ack ∧
    (timeout_timer r dev).select = dev.select ∧
    (timeout_timer r dev).autofeed = dev.autofeed ∧
    (timeout_timer r dev).pulse_timer = dev.pulse_timer := by
  by_cases hc : dev.bcursor = 0
  · rcases hjob with hj | hj
    · exact absurd hc hj
    · obtain ⟨f, hf⟩ := Option.isSome_iff_exists.1 hj
      refine ⟨⟨f, Or.inl hf, ?_⟩, ?_⟩ <;>
        simp [timeout_timer, flush_buffer, hc, hf]
  · rcases hf : dev.file with _ | f
    · obtain ⟨h, rfl⟩ := Option.isSome_iff_exists.1 (hopen hc hf)
      refine ⟨⟨h, Or.inr ⟨rfl, rfl⟩, ?_⟩, ?_⟩ <;>
        simp [timeout_timer, flush_buffer, hc, hf, buffered]
    · refine ⟨⟨f, Or.inl rfl, ?_⟩, ?_⟩ <;>
        simp [timeout_timer, flush_buffer, hc, hf, buffered]

/-- Witness of C4: one byte buffered, no file open, `fopen` returns stream 7;
the file is opened, receives `[0x41]` and is closed. -/
theorem timeout_flushes_and_closes_witness :
    (one_buffered.bcursor ≠ 0 ∨ one_buffered.file.isSome = true) ∧
    (one_buffered.bcursor ≠ 0 → one_buffered.file = none → (some 7).isSome = true) ∧
    ((∃ h, (one_buffered.file = some h ∨ (one_buffered.file = none ∧ some 7 = some h)) ∧
      (timeout_timer (some 7) one_buffered).events =
        one_buffered.events ++
          (if one_buffered.bcursor ≠ 0 then
            (if one_buffered.file = none then [Event.fopen_ok h] else []) ++
              [Event.fwrite h (buffered one_buffered)]
          else []) ++ [Event.fclose h]) ∧
    (timeout_timer (some 7) one_buffered).bcursor = 0 ∧
    (timeout_timer (some 7) one_buffered).file = none ∧
    (timeout_timer (some 7) one_buffered).timeout_timer = none ∧
    (timeout_timer (some 7) one_buffered).data = one_buffered.data ∧
    (timeout_timer (some 7) one_buffered).ctrl = one_buffered.ctrl ∧
    (timeout_timer (some 7) one_buffered).ack = one_buffered.ack ∧
    (timeout_timer (some 7) one_buffered).select = one_buffered.select ∧
    (timeout_timer (some 7) one_buffered).autofeed = one_buffered.autofeed ∧
    (timeout_timer (some 7) one_buffered).pulse_timer = one_buffered.pulse_timer) ∧
    (timeout_timer (some 7) one_buffered).events =
      [Event.fopen_ok 7, Event.fwrite 7 [0x41], Event.fclose 7] :=
  ⟨Or.inl (by decide), fun _ _ => rfl,
   timeout_flushes_and_closes (some 7) one_buffered (Or.inl (by decide)) (fun _ _ => rfl),
   by decide⟩

/-- C7 (failed file creation), evaluated where it fails.  One byte is
buffered, no file is open and `fopen` fails: after `flush_buffer` the cursor is
still `1` and the byte is still in the buffer, also when the flush is the one
made by `printer_close`; and when the flush is the one `push_byte` makes once
`BUFFER_LEN` bytes have been stored, the cursor stays at `BUFFER_LEN`.  In no
case is the cursor reset to `0`. -/
theorem flush_open_failure_keeps_cursor :
    one_buffered.bcursor ≠ 0 ∧ one_buffered.file = none ∧
    (flush_buffer none one_buffered).bcursor = 1 ∧
    buffered (flush_buffer none one_buffered) = [0x41] ∧
    (flush_buffer none one_buffered).events = [Event.fopen_fail] ∧
    (printer_close none one_buffered).bcursor = 1 ∧
    (printer_close none one_buffered).events = [Event.fopen_fail, Event.free] ∧
    (run 1 1 (init 0) (strobes BUFFER_LEN none)).bcursor = BUFFER_LEN ∧
    (run 1 1 (init 0) (strobes BUFFER_LEN none)).file = none := by
  refine ⟨by decide, by decide, by decide, by decide, by decide, by decide, by decide, ?_, ?_⟩
  · rw [(run_strobes_open_failing 1 1 BUFFER_LEN (init 0) rfl (by decide)).1]
    rfl
  · exact (run_strobes_open_failing 1 1 BUFFER_LEN (init 0) rfl (by decide)).2

/-- What `flush_buffer` does when the buffer is not empty, no file is open and
`fopen` fails: it returns right after the failed `fopen`, with every field of
the device as it was. -/
theorem flush_open_failure_abandons (dev : printer_t)
    (hne : dev.bcursor ≠ 0) (hf : dev.file = none) :
    flush_buffer none dev = { dev with events := dev.events ++ [Event.fopen_fail] } := by
  unfold flush_buffer
  rw [if_pos hne]
  obtain ⟨_, _, _, _, file, _, _, _, _, _, _, _, _, _, _, _⟩ := dev
  simp only at hf
  subst hf
  rfl

/-- C8 (reset preserves the job).  A control write that is a reset rising edge
and not a strobe falling edge leaves the buffer, the cursor, the file handle
and the log of file calls unchanged, clears the acknowledge and disables both
timers. -/
theorem reset_preserves_job (I T val : Nat) (r : Option Nat) (dev : printer_t)
    (hr : reset_edge dev.ctrl val) (hs : ¬ strobe_edge dev.ctrl val) :
    (write_ctrl I T val r dev).buffer = dev.buffer ∧
    (write_ctrl I T val r dev).bcursor = dev.bcursor ∧
    (write_ctrl I T val r dev).file = dev.file ∧
    (write_ctrl I T val r dev).events = dev.events ∧
    (write_ctrl I T val r dev).ack = 0 ∧
    (write_ctrl I T val r dev).pulse_timer = none ∧
    (write_ctrl I T val r dev).timeout_timer = none := by
  obtain ⟨n1, n2, n3, n4, -, -⟩ := write_ctrl_no_edge I T val r dev hs
  obtain ⟨r1, r2, r3, -⟩ := ctrl_lines_reset val dev hr
  refine ⟨n1, n2, n3, n4, ?_, ?_, ?_⟩ <;>
    rw [write_ctrl_eq, if_neg (by rw [strobe_test_lines]; exact hs)] <;> assumption

/-- Witness of C8: a reset edge (control `0x04`) while `0x41` is buffered, the
acknowledge is pending and both timers are armed. -/
theorem reset_preserves_job_witness :
    reset_edge one_buffered.ctrl 0x04 ∧ ¬ strobe_edge one_buffered.ctrl 0x04 ∧
    ((write_ctrl 1 1 0x04 none one_buffered).buffer = one_buffered.buffer ∧
    (write_ctrl 1 1 0x04 none one_buffered).bcursor = one_buffered.bcursor ∧
    (write_ctrl 1 1 0x04 none one_buffered).file = one_buffered.file ∧
    (write_ctrl 1 1 0x04 none one_buffered).events = one_buffered.events ∧
    (write_ctrl 1 1 0x04 none one_buffered).ack = 0 ∧
    (write_ctrl 1 1 0x04 none one_buffered).pulse_timer = none ∧
    (write_ctrl 1 1 0x04 none one_buffered).timeout_timer = none) ∧
    one_buffered.ack = 1 ∧ one_buffered.pulse_timer = some 1 ∧
    one_buffered.timeout_timer = some 5000000 ∧
    buffered (write_ctrl 1 1 0x04 none one_buffered) = [0x41] :=
  ⟨by decide, by decide,
   reset_preserves_job 1 1 0x04 none one_buffered (by decide) (by decide),
   by decide, by decide, by decide, by decide⟩

/-- C9 (status read).  `read_status` returns `0x9F` when the acknowledge is
non-zero and `0xDF` when it is zero, so the result differs from `0x9F` in bit 6
at most, and the device is returned as it was. -/
theorem read_status_depends_on_ack_only (dev : printer_t) :
    (read_status dev).1 = (if dev.ack = 0 then 0xDF else 0x9F) ∧
    (read_status dev).1 &&& 0xBF = 0x9F ∧
    (read_status dev).2 = dev := by
  refine ⟨?_, ?_, rfl⟩ <;> by_cases h : dev.ack = 0 <;> simp only [read_status, h, if_true,
    if_false] <;> decide

/-- C10 (acknowledge handshake).  After a control write that is a strobe
falling edge, `read_status` returns `0x9F` (bit 6 clear, acknowledge active);
after the pulse callback has then run, it returns `0xDF` (bit 6 set). -/
theorem ack_handshake (I T val : Nat) (r : Option Nat) (dev : printer_t)
    (he : strobe_edge dev.ctrl val) :
    (read_status (write_ctrl I T val r dev)).1 = 0x9F ∧
    (read_status (pulse_timer (read_status (write_ctrl I T val r dev)).2)).1 = 0xDF := by
  obtain ⟨-, -, -, -, -, e6, -⟩ := write_ctrl_edge I T val r dev he
  constructor
  · simp [read_status, e6]
  · have := pulse_timer_ack (write_ctrl I T val r dev)
    simp [read_status, this]

/-- Witness of C10: the strobe is dropped on a device that had it raised. -/
theorem ack_handshake_witness :
    strobe_edge strobe_raised.ctrl 0x00 ∧
    ((read_status (write_ctrl 1 1 0x00 none strobe_raised)).1 = 0x9F ∧
    (read_status (pulse_timer
      (read_status (write_ctrl 1 1 0x00 none strobe_raised)).2)).1 = 0xDF) :=
  ⟨by decide, ack_handshake 1 1 0x00 none strobe_raised (by decide)⟩

/-- C5 (file-open invariant), evaluated where it fails: after one byte has been
accepted on a fresh device, with no timeout fired and `fopen` ready to
succeed, no file is open. -/
theorem file_not_open_after_first_byte :
    schedulable 1 1 (init 0)
      [Op.writeData 0x41, Op.writeControl 0x01 (some 7), Op.writeControl 0x00 (some 7)] = true ∧
    (ledger [Op.writeData 0x41, Op.writeControl 0x01 (some 7),
      Op.writeControl 0x00 (some 7)]).job = 1 ∧
    (run 1 1 (init 0) [Op.writeData 0x41, Op.writeControl 0x01 (some 7),
      Op.writeControl 0x00 (some 7)]).file = none ∧
    ¬ ((run 1 1 (init 0) [Op.writeData 0x41, Op.writeControl 0x01 (some 7),
        Op.writeControl 0x00 (some 7)]).file.isSome = true ↔
      1 ≤ (ledger [Op.writeData 0x41, Op.writeControl 0x01 (some 7),
        Op.writeControl 0x00 (some 7)]).job) := by
  decide

/-- C5 as amended.  In every state reached from a fresh device, a file is open
only if at least one byte has been accepted since the job timeout last fired;
and when every `fopen` succeeds, a file is open if and only if at least
`BUFFER_LEN` bytes have been accepted since the job timeout last fired: the
file is opened by the first flush of a job, not by its first byte. -/
theorem file_open_iff_buffer_flushed (I T lpt : Nat) (ops : List Op) :
    ((run I T (init lpt) ops).file.isSome = true → 1 ≤ (ledger ops).job) ∧
    ((∀ op ∈ ops, op.opens = true) →
      ((run I T (init lpt) ops).file.isSome = true ↔ BUFFER_LEN ≤ (ledger ops).job)) :=
  ⟨(run_file_open_job I T lpt ops).2, fun hopen => (run_job_inv I T lpt ops hopen).2.2⟩

/-- Witness of C5 as amended: after `BUFFER_LEN` strobes with `fopen`
succeeding the file is open. -/
theorem file_open_iff_buffer_flushed_witness :
    (∀ op ∈ strobes BUFFER_LEN (some 7), op.opens = true) ∧
    (run 1 1 (init 0) (strobes BUFFER_LEN (some 7))).file.isSome = true ∧
    BUFFER_LEN ≤ (ledger (strobes BUFFER_LEN (some 7))).job :=
  ⟨strobes_opens BUFFER_LEN 7,
   ((file_open_iff_buffer_flushed 1 1 0 (strobes BUFFER_LEN (some 7))).2
      (strobes_opens BUFFER_LEN 7)).2 (by rw [ledger_strobes_job]),
   by rw [ledger_strobes_job]⟩

/-- C11 (pulse timer firing).  The pulse callback raises exactly one interrupt
when the acknowledge was pending and none otherwise, leaves the acknowledge
clear and its own timer disabled, and changes no other field. -/
theorem pulse_timer_effect (dev : printer_t) :
    pulse_timer dev =
      { dev with
        ack := 0
        pulse_timer := none
        events := dev.events ++ (if dev.ack ≠ 0 then [Event.lpt_irq dev.lpt 1] else []) } := by
  obtain ⟨_, _, _, _, _, _, _, _, ack, _, _, _, _, _, _, _⟩ := dev
  by_cases h : ack = 0
  · simp [pulse_timer, h]
  · simp [pulse_timer, h]

/-- C12 (close releases the job).  When a needed `fopen` succeeds,
`printer_close` writes the buffered bytes to the file (opening it first when
none was open), closes the file when one is open, and frees the device; on a
device with an empty buffer and no file the only call it makes is `free`. -/
theorem close_flushes_and_closes (r : Option Nat) (dev : printer_t)
    (hopen : dev.bcursor ≠ 0 → dev.file = none → r.isSome = true) :
    (dev.bcursor = 0 → dev.file = none →
      (printer_close r dev).events = dev.events ++ [Event.free]) ∧
    (dev.bcursor = 0 → ∀ f, dev.file = some f →
      (printer_close r dev).events = dev.events ++ [Event.fclose f, Event.free]) ∧
    (dev.bcursor ≠ 0 → ∃ h, (dev.file = some h ∨ (dev.file = none ∧ r = some h)) ∧
      (printer_close r dev).events =
        dev.events ++ (if dev.file = none then [Event.fopen_ok h] else []) ++
          [Event.fwrite h (buffered dev), Event.fclose h, Event.free]) := by
  refine ⟨?_, ?_, ?_⟩
  · intro hc hf
    simp [printer_close, flush_buffer, hc, hf]
  · intro hc f hf
    simp [printer_close, flush_buffer, hc, hf]
  · intro hc
    rcases hf : dev.file with _ | f
    · obtain ⟨h, rfl⟩ := Option.isSome_iff_exists.1 (hopen hc hf)
      exact ⟨h, Or.inr ⟨rfl, rfl⟩, by simp [printer_close, flush_buffer, hc, hf, buffered]⟩
    · exact ⟨f, Or.inl rfl, by simp [printer_close, flush_buffer, hc, hf, buffered]⟩

/-- Witness of C12: one byte buffered, no file open, `fopen` returns stream 7;
the file is opened, receives `[0x41]`, is closed, and the device is freed. -/
theorem close_flushes_and_closes_witness :
    (one_buffered.bcursor ≠ 0 → one_buffered.file = none → (some 7).isSome = true) ∧
    ((one_buffered.bcursor = 0 → one_buffered.file = none →
      (printer_close (some 7) one_buffered).events = one_buffered.events ++ [Event.free]) ∧
    (one_buffered.bcursor = 0 → ∀ f, one_buffered.file = some f →
      (printer_close (some 7) one_buffered).events =
        one_buffered.events ++ [Event.fclose f, Event.free]) ∧
    (one_buffered.bcursor ≠ 0 →
      ∃ h, (one_buffered.file = some h ∨ (one_buffered.file = none ∧ some 7 = some h)) ∧
      (printer_close (some 7) one_buffered).events =
        one_buffered.events ++ (if one_buffered.file = none then [Event.fopen_ok h] else []) ++
          [Event.fwrite h (buffered one_buffered), Event.fclose h, Event.free])) ∧
    (printer_close (some 7) one_buffered).events =
      [Event.fopen_ok 7, Event.fwrite 7 [0x41], Event.fclose 7, Event.free] ∧
    (printer_close none (init 0)).events = [Event.free] :=
  ⟨fun _ _ => rfl, close_flushes_and_closes (some 7) one_buffered (fun _ _ => rfl),
   by decide, by decide⟩

/-- C13 (close and the timers), evaluated where it fails: the device is closed
while a byte is buffered and both timers are armed.  The file is written and
closed and the device is freed, and at that point both timers are still
armed. -/
theorem close_leaves_timers_armed :
    one_buffered.pulse_timer = some 1 ∧
    one_buffered.timeout_timer = some 5000000 ∧
    (printer_close (some 7) one_buffered).events =
      [Event.fopen_ok 7, Event.fwrite 7 [0x41], Event.fclose 7, Event.free] ∧
    (printer_close (some 7) one_buffered).pulse_timer = some 1 ∧
    (printer_close (some 7) one_buffered).timeout_timer = some 5000000 := by
  decide

/-- C14 (null handle), evaluated where it fails: with a `NULL` pointer
`write_data`, `write_ctrl` and `printer_close` return without doing anything,
while `read_status` and the two timer callbacks read a field through the
pointer. -/
theorem null_handle_calls :
    write_data_priv 0x41 none = Call.returned none ∧
    write_ctrl_priv 1 1 0x00 (some 7) none = Call.returned none ∧
    printer_close_priv (some 7) none = Call.returned none ∧
    read_status_priv none = Call.null_deref ∧
    pulse_timer_priv none = Call.null_deref ∧
    timeout_timer_priv (some 7) none = Call.null_deref := by
  decide

/-- C15 (acknowledge invariant).  In every state reached from a fresh device
the acknowledge is `1` exactly when a strobe falling edge has been accepted
and neither a firing of the pulse timer nor a reset has followed it, and `0`
otherwise; the pulse timer is armed in exactly the same states, so whenever
the acknowledge is `1` the pulse timer is armed. -/
theorem ack_pending_only_while_pulse_armed (I T lpt : Nat) (ops : List Op) :
    (run I T (init lpt) ops).ack = (if (ack_window ops).pending = true then 1 else 0) ∧
    (run I T (init lpt) ops).pulse_timer.isSome = (ack_window ops).pending ∧
    ((run I T (init lpt) ops).ack = 0 ∨ (run I T (init lpt) ops).ack = 1) ∧
    ((run I T (init lpt) ops).ack = 1 → (run I T (init lpt) ops).pulse_timer.isSome = true) := by
  have key : (run I T (init lpt) ops).ctrl = (ack_window ops).control ∧
      (run I T (init lpt) ops).ack = (if (ack_window ops).pending = true then 1 else 0) ∧
      (run I T (init lpt) ops).pulse_timer.isSome = (ack_window ops).pending := by
    induction ops using List.reverseRecOn with
    | nil => exact ⟨rfl, rfl, rfl⟩
    | append_singleton ops op ih =>
      obtain ⟨i1, i2, i3⟩ := ih
      rw [run_snoc, ack_window_snoc]
      generalize run I T (init lpt) ops = s at i1 i2 i3 ⊢
      generalize ack_window ops = w at i1 i2 i3 ⊢
      obtain ⟨c, p⟩ := w
      simp only at i1 i2 i3
      subst i1
      cases op with
      | writeData v => exact ⟨rfl, i2, i3⟩
      | writeControl v r =>
        simp only [step, AckWindow.observe]
        obtain ⟨-, d2, -⟩ := write_ctrl_data I T v r s
        by_cases he : strobe_edge s.ctrl v
        · obtain ⟨-, -, -, -, -, e6, e7, -⟩ := write_ctrl_edge I T v r s he
          rw [if_pos he, e6, e7]
          exact ⟨d2, rfl, rfl⟩
        · obtain ⟨n1, n2, -⟩ := write_ctrl_no_edge_lines I T v r s he
          rw [if_neg he, n1, n2]
          by_cases hr : reset_edge s.ctrl v
          · obtain ⟨r1, r2, -, -⟩ := ctrl_lines_reset v s hr
            rw [if_pos hr, r1, r2]
            exact ⟨d2, rfl, rfl⟩
          · obtain ⟨q1, q2, -⟩ := ctrl_lines_no_reset v s hr
            rw [if_neg hr, q1, q2]
            exact ⟨d2, i2, i3⟩
      | readStatus => exact ⟨rfl, i2, i3⟩
      | pulseFire =>
        simp only [step, AckWindow.observe]
        rw [pulse_timer_ack, pulse_timer_disarms, (pulse_timer_frame s).2.2.2.2.1]
        exact ⟨rfl, rfl, rfl⟩
      | timeoutFire r =>
        simp only [step, AckWindow.observe]
        obtain ⟨t1, t2⟩ := timeout_timer_ack r s
        rw [t1, t2, (timeout_timer_frame r s).2.2]
        exact ⟨rfl, i2, i3⟩
  obtain ⟨-, k2, k3⟩ := key
  refine ⟨k2, k3, ?_, ?_⟩
  · rw [k2]
    by_cases hp : (ack_window ops).pending = true
    · exact Or.inr (by rw [if_pos hp])
    · exact Or.inl (by rw [if_neg hp])
  · intro h1
    rw [k3]
    by_contra hp
    rw [k2, if_neg hp] at h1
    exact absurd h1 (by decide)

/-- An instance of C15: after a strobe the acknowledge is `1`; after the pulse
timer has fired, and likewise after a reset, it is `0`. -/
theorem ack_window_closes :
    (ack_window [Op.writeControl 0x01 none, Op.writeControl 0x00 none]).pending = true ∧
    (run 1 1 (init 0) [Op.writeControl 0x01 none, Op.writeControl 0x00 none]).ack = 1 ∧
    (ack_window [Op.writeControl 0x01 none, Op.writeControl 0x00 none,
      Op.pulseFire]).pending = false ∧
    (run 1 1 (init 0) [Op.writeControl 0x01 none, Op.writeControl 0x00 none,
      Op.pulseFire]).ack = 0 ∧
    (ack_window [Op.writeControl 0x01 none, Op.writeControl 0x00 none,
      Op.writeControl 0x04 none]).pending = false ∧
    (run 1 1 (init 0) [Op.writeControl 0x01 none, Op.writeControl 0x00 none,
      Op.writeControl 0x04 none]).ack = 0 := by
  decide

/-- C16 (flush postcondition).  With an empty buffer `flush_buffer` returns the
device as it was.  With a non-empty buffer and a file that is open or that
`fopen` opens, it appends to the log the `fopen` (only when no file was open)
and one `fwrite` of `buffer[0..bcursor)` to that file, sets the cursor to `0`,
leaves that file open, and changes nothing else. -/
theorem flush_buffer_post (r : Option Nat) (dev : printer_t) :
    (dev.bcursor = 0 → flush_buffer r dev = dev) ∧
    (dev.bcursor ≠ 0 → ∀ h, (dev.file = some h ∨ (dev.file = none ∧ r = some h)) →
      flush_buffer r dev =
        { dev with
          file := some h
          bcursor := 0
          events := dev.events ++ (if dev.file = none then [Event.fopen_ok h] else []) ++
            [Event.fwrite h (buffered dev)] }) := by
  constructor
  · intro hc
    simp [flush_buffer, hc]
  · intro hc h hh
    rcases hh with hf | ⟨hf, rfl⟩
    · simp [flush_buffer, hc, hf, buffered]
    · simp [flush_buffer, hc, hf, buffered]

/-- Witness of C16: the fresh device (empty buffer) and the device with one
byte buffered, no file open and `fopen` returning stream 7. -/
theorem flush_buffer_post_witness :
    flush_buffer (some 7) (init 0) = init 0 ∧
    flush_buffer (some 7) one_buffered =
      { one_buffered with
        file := some 7
        bcursor := 0
        events := one_buffered.events ++
          (if one_buffered.file = none then [Event.fopen_ok 7] else []) ++
            [Event.fwrite 7 (buffered one_buffered)] } ∧
    (flush_buffer (some 7) one_buffered).events = [Event.fopen_ok 7, Event.fwrite 7 [0x41]] :=
  ⟨(flush_buffer_post (some 7) (init 0)).1 rfl,
   (flush_buffer_post (some 7) one_buffered).2 (by decide) 7 (Or.inr ⟨by decide, rfl⟩),
   by decide⟩

/-- C17 (control register decode).  After `write_ctrl` of a byte `val` the
stored control is `val` and `autofeed` is bit 1 of `val`; `select` is `0` on a
reset rising edge, also when bit 3 of `val` is set, otherwise `1` when bit 3 of
`val` is set, otherwise what it was. -/
theorem write_ctrl_decode (I T val : Nat) (r : Option Nat) (dev : printer_t)
    (hv : val < U8) :
    (write_ctrl I T val r dev).ctrl = val ∧
    (write_ctrl I T val r dev).autofeed = (if val.testBit 1 = true then 1 else 0) ∧
    (write_ctrl I T val r dev).select =
      (if reset_edge dev.ctrl val then 0 else if val.testBit 3 = true then 1 else dev.select) := by
  obtain ⟨-, d2, -⟩ := write_ctrl_data I T val r dev
  obtain ⟨l1, l2⟩ := write_ctrl_lines I T val r dev
  obtain ⟨c1, c2⟩ := ctrl_lines_decode val dev
  exact ⟨by rw [d2, Nat.mod_eq_of_lt hv], by rw [l2, c1], by rw [l1, c2]⟩

/-- Witness of C17: control `0x0E` (autofeed, reset and select bits) written to
a fresh-run device whose stored control is `0x00`; the reset edge wins over the
select bit. -/
theorem write_ctrl_decode_witness :
    (0x0E : Nat) < U8 ∧
    ((write_ctrl 1 1 0x0E none one_buffered).ctrl = 0x0E ∧
    (write_ctrl 1 1 0x0E none one_buffered).autofeed
      = (if Nat.testBit 0x0E 1 = true then 1 else 0) ∧
    (write_ctrl 1 1 0x0E none one_buffered).select =
      (if reset_edge one_buffered.ctrl 0x0E then 0
        else if Nat.testBit 0x0E 3 = true then 1 else one_buffered.select)) ∧
    (write_ctrl 1 1 0x0E none one_buffered).autofeed = 1 ∧
    (write_ctrl 1 1 0x0E none one_buffered).select = 0 :=
  ⟨by decide, write_ctrl_decode 1 1 0x0E none one_buffered (by decide), by decide, by decide⟩

/-- C18 (accepting a byte arms everything).  After a `write_ctrl` that is a
strobe falling edge, also one that is a reset rising edge at the same time,
the acknowledge is `1`, the pulse timer is armed with `ISACONST` and the
timeout timer with `5000000 * TIMER_USEC`, whatever the timers were before. -/
theorem strobe_edge_arms_timers (I T val : Nat) (r : Option Nat) (dev : printer_t)
    (he : strobe_edge dev.ctrl val) :
    (write_ctrl I T val r dev).ack = 1 ∧
    (write_ctrl I T val r dev).pulse_timer = some (I % U64) ∧
    (write_ctrl I T val r dev).timeout_timer = some (5000000 * T % U64) := by
  obtain ⟨-, -, -, -, -, e6, e7, e8⟩ := write_ctrl_edge I T val r dev he
  exact ⟨e6, e7, e8⟩

/-- Witness of C18: control `0x04` written while the stored control is `0x01`
is a strobe falling edge and a reset rising edge at once. -/
theorem strobe_edge_arms_timers_witness :
    strobe_edge strobe_raised.ctrl 0x04 ∧ reset_edge strobe_raised.ctrl 0x04 ∧
    ((write_ctrl 3 4 0x04 none strobe_raised).ack = 1 ∧
    (write_ctrl 3 4 0x04 none strobe_raised).pulse_timer = some (3 % U64) ∧
    (write_ctrl 3 4 0x04 none strobe_raised).timeout_timer = some (5000000 * 4 % U64)) :=
  ⟨by decide, by decide, strobe_edge_arms_timers 3 4 0x04 none strobe_raised (by decide)⟩

/-- C19 (the timeout never closes an absent file when opens succeed).  In every
state reached from a fresh device by operations whose `fopen` succeeds,
whenever the timeout timer is armed a byte is buffered or a file is open; so
when the callback then runs, its `fclose` is given an open stream, not
`NULL`. -/
theorem armed_timeout_closes_open_file (I T lpt : Nat) (ops : List Op) (h : Nat)
    (hopen : ∀ op ∈ ops, op.opens = true)
    (harmed : (run I T (init lpt) ops).timeout_timer.isSome = true) :
    ((run I T (init lpt) ops).bcursor ≠ 0 ∨ (run I T (init lpt) ops).file.isSome = true) ∧
    ∃ f, (timeout_timer (some h) (run I T (init lpt) ops)).events =
      (flush_buffer (some h) (run I T (init lpt) ops)).events ++ [Event.fclose f] := by
  have hjob := run_timeout_armed_inv I T lpt ops hopen harmed
  exact ⟨hjob, timeout_timer_closes_open h (run I T (init lpt) ops) hjob⟩

/-- Witness of C19: `0x41` was accepted with `fopen` ready to succeed; the
timeout timer is armed and the callback closes stream 7. -/
theorem armed_timeout_closes_open_file_witness :
    (∀ op ∈ [Op.writeData 0x41, Op.writeControl 0x01 (some 7), Op.writeControl 0x00 (some 7)],
      op.opens = true) ∧
    (run 1 1 (init 0) [Op.writeData 0x41, Op.writeControl 0x01 (some 7),
      Op.writeControl 0x00 (some 7)]).timeout_timer.isSome = true ∧
    (((run 1 1 (init 0) [Op.writeData 0x41, Op.writeControl 0x01 (some 7),
        Op.writeControl 0x00 (some 7)]).bcursor ≠ 0 ∨
      (run 1 1 (init 0) [Op.writeData 0x41, Op.writeControl 0x01 (some 7),
        Op.writeControl 0x00 (some 7)]).file.isSome = true) ∧
    ∃ f, (timeout_timer (some 7) (run 1 1 (init 0) [Op.writeData 0x41,
        Op.writeControl 0x01 (some 7), Op.writeControl 0x00 (some 7)])).events =
      (flush_buffer (some 7) (run 1 1 (init 0) [Op.writeData 0x41,
        Op.writeControl 0x01 (some 7), Op.writeControl 0x00 (some 7)])).events ++
        [Event.fclose f]) :=
  ⟨by decide, by decide,
   armed_timeout_closes_open_file 1 1 0 _ 7 (by decide) (by decide)⟩

end PrtToFile
